import Mathlib

/-!
# A model of the optmzr/d7024e-dht lookup engine

This file embeds the `dht` package of the d7024e-dht repository (file
`dht/dht.go`) in Lean 4 and proves properties of its iterative lookup
walk, its publish/retrieve entry points and its inbound request handlers.

The `dht` package depends on the repository's `route`, `store` and call
packages, whose sources are not available here; those data structures are
modelled from the specification (each such definition carries a doc
comment starting with `Modelled from the spec:`).  Everything in the
`walk`, handler and `iterative*` functions is translated directly from
`dht/dht.go`.

Conventions of the embedding:
* Node identifiers and addresses are natural numbers; the XOR distance of
  the specification is `Nat.xor`, whose ordering on naturals coincides
  with the big-endian lexicographic ordering of fixed-width byte strings.
* Values (Go `string` payloads) are byte lists (`List Nat`).
* The network is an oracle `env : Contact → RpcOutcome` fixing, for each
  contact, whether `call.Do` fails synchronously, the RPC times out
  (`nil` result), or a result arrives.  The arrival order of a wave's
  completions is chosen by a schedule `sched : Nat → List Nat`; `reorder`
  turns the schedule into a permutation of the dispatched wave, so
  quantifying over `sched` covers every interleaving of the fan-in loop.
* Go panics (out-of-range indexing) and non-termination are made explicit:
  the walk takes fuel and returns `WalkOut.panicked` where the Go code
  would crash and `WalkOut.fuelOut` when the fuel ends before the loop does.
-/

/-! ## Identifiers, contacts and XOR distance -/

/-- `route.Contact`: a `(NodeID, Address)` record.  IDs and addresses are
naturals; equality of contacts in the source is equality of node IDs, and
all operations below only compare `nodeID` fields. -/
structure Contact where
  nodeID : Nat
  address : Nat
deriving DecidableEq, Repr, Inhabited

/-- XOR distance from a target ID to a contact, compared as a natural
number (big-endian reading of the ID bytes). -/
def distTo (t : Nat) (c : Contact) : Nat := Nat.xor t c.nodeID

/-- The distance ordering used to sort contacts relative to a target. -/
def leDist (t : Nat) (a b : Contact) : Prop := distTo t a ≤ distTo t b

instance (t : Nat) : DecidableRel (leDist t) := fun a b => Nat.decLe (distTo t a) (distTo t b)

instance (t : Nat) : IsTotal Contact (leDist t) :=
  ⟨fun a b => Nat.le_total (distTo t a) (distTo t b)⟩

instance (t : Nat) : IsTrans Contact (leDist t) :=
  ⟨fun _ _ _ => Nat.le_trans⟩

/-- Contacts sorted by ascending XOR distance to `t`. -/
def sortByDist (t : Nat) (l : List Contact) : List Contact :=
  List.insertionSort (leDist t) l

/-- Degree of parallelism (`const α = 3` in `dht.go`). -/
def α : Nat := 3

/-- Bucket and shortlist size (`const k = 20` in `dht.go`). -/
def k : Nat := 20

/-! ## Shortlist

Modelled from the spec: the shortlist (component D) is a bounded working
set of up to `k` contacts sorted by ascending XOR distance to a fixed
target; `Add` is set-union on NodeID followed by truncation to the `k`
closest, `Remove` drops by NodeID, and `SortedContacts` returns a
distance-sorted snapshot.  The `route` package holding the Go shortlist is
not among the provided sources. -/

structure Shortlist where
  target : Nat
  contacts : List Contact
deriving DecidableEq, Repr, Inhabited

/-- Insert a contact unless its NodeID is already present (set-union on
NodeID, existing entry kept). -/
def insertContact (l : List Contact) (c : Contact) : List Contact :=
  if l.any (fun d => d.nodeID = c.nodeID) then l else l ++ [c]

/-- Modelled from the spec: `Shortlist.Add(contacts...)` — union on
NodeID, re-sort by distance, keep the `k` closest. -/
def Shortlist.add (sl : Shortlist) (cs : List Contact) : Shortlist :=
  ⟨sl.target, (sortByDist sl.target (cs.foldl insertContact sl.contacts)).take k⟩

/-- Modelled from the spec: `Shortlist.Remove(contact)` — drop by NodeID. -/
def Shortlist.remove (sl : Shortlist) (c : Contact) : Shortlist :=
  ⟨sl.target, sl.contacts.filter (fun d => d.nodeID ≠ c.nodeID)⟩

/-- Modelled from the spec: `Shortlist.SortedContacts()` — a snapshot
sorted by ascending distance to the shortlist's target. -/
def Shortlist.sortedContacts (sl : Shortlist) : List Contact :=
  sortByDist sl.target sl.contacts

/-! ## Routing table

Modelled from the spec: the routing table (component C) holds the local
contact `me` and a set of known contacts with distinct NodeIDs, never
containing `me`.  `Add` is a no-op on `me`, moves an already-present
contact to the most-recently-seen position and appends a new one;
`NClosest(target, n)` returns up to `n` stored contacts closest to the
target as a shortlist.  The k-bucket layout (bucket indexing by shared
prefix and the per-bucket capacity/eviction policy, which §9 of the spec
leaves as an open question) is abstracted away: no claim checked here
depends on it, and `NClosest` sorts globally exactly as the spec
prescribes. -/

structure Table where
  me : Contact
  contacts : List Contact
deriving DecidableEq, Repr, Inhabited

/-- Modelled from the spec: `Table.Add` — no-op for the local node,
move-to-tail for a known NodeID, append for a new one. -/
def Table.add (rt : Table) (c : Contact) : Table :=
  if c.nodeID = rt.me.nodeID then rt
  else ⟨rt.me, rt.contacts.filter (fun d => d.nodeID ≠ c.nodeID) ++ [c]⟩

/-- Modelled from the spec: `Table.NClosest(target, n)` — up to `n`
stored contacts with smallest XOR distance to `target`, as a shortlist. -/
def Table.nclosest (rt : Table) (target n : Nat) : Shortlist :=
  ⟨target, (sortByDist target rt.contacts).take n⟩

/-! ## BLAKE2b-256

`dht.go` derives keys with `blake2b.Sum256` from `golang.org/x/crypto`.
The hash is reproduced here (RFC 7693, digest length 32, no key) over
byte lists so that key derivation is a concrete computable function. -/

/-- Truncate to a 64-bit word. -/
def w64 (x : Nat) : Nat := x % (2 ^ 64)

/-- 64-bit right rotation. -/
def rotr64 (x n : Nat) : Nat := w64 ((x >>> n) ||| (x <<< (64 - n)))

/-- BLAKE2b initialization vector. -/
def blakeIV : List Nat :=
  [0x6a09e667f3bcc908, 0xbb67ae8584caa73b, 0x3c6ef372fe94f82b, 0xa54ff53a5f1d36f1,
   0x510e527fade682d1, 0x9b05688c2b3e6c1f, 0x1f83d9abfb41bd6b, 0x5be0cd19137e2179]

/-- BLAKE2b message schedule. -/
def blakeSigma : List (List Nat) :=
  [[0, 1, 2, 3, 4, 5, 6, 7, 8, 9, 10, 11, 12, 13, 14, 15],
   [14, 10, 4, 8, 9, 15, 13, 6, 1, 12, 0, 2, 11, 7, 5, 3],
   [11, 8, 12, 0, 5, 2, 15, 13, 10, 14, 3, 6, 7, 1, 9, 4],
   [7, 9, 3, 1, 13, 12, 11, 14, 2, 6, 5, 10, 4, 0, 15, 8],
   [9, 0, 5, 7, 2, 4, 10, 15, 14, 1, 11, 12, 6, 8, 3, 13],
   [2, 12, 6, 10, 0, 11, 8, 3, 4, 13, 7, 5, 15, 14, 1, 9],
   [12, 5, 1, 15, 14, 13, 4, 10, 0, 7, 6, 3, 9, 2, 8, 11],
   [13, 11, 7, 14, 12, 1, 3, 9, 5, 0, 15, 4, 8, 6, 2, 10],
   [6, 15, 14, 9, 11, 3, 0, 8, 12, 2, 13, 7, 1, 4, 10, 5],
   [10, 2, 8, 4, 7, 6, 1, 5, 15, 11, 9, 14, 3, 12, 13, 0]]

/-- The BLAKE2b G mixing function on a 16-word state. -/
def gMix (v : List Nat) (a b c d x y : Nat) : List Nat :=
  let va := w64 (v.getD a 0 + v.getD b 0 + x)
  let vd := rotr64 (Nat.xor (v.getD d 0) va) 32
  let vc := w64 (v.getD c 0 + vd)
  let vb := rotr64 (Nat.xor (v.getD b 0) vc) 24
  let va := w64 (va + vb + y)
  let vd := rotr64 (Nat.xor vd va) 16
  let vc := w64 (vc + vd)
  let vb := rotr64 (Nat.xor vb vc) 63
  ((((v.set a va).set d vd).set c vc).set b vb)

/-- One BLAKE2b round over message words `m`. -/
def blakeRound (m v : List Nat) (r : Nat) : List Nat :=
  let s := blakeSigma.getD (r % 10) []
  let mi := fun i => m.getD (s.getD i 0) 0
  let v := gMix v 0 4 8 12 (mi 0) (mi 1)
  let v := gMix v 1 5 9 13 (mi 2) (mi 3)
  let v := gMix v 2 6 10 14 (mi 4) (mi 5)
  let v := gMix v 3 7 11 15 (mi 6) (mi 7)
  let v := gMix v 0 5 10 15 (mi 8) (mi 9)
  let v := gMix v 1 6 11 12 (mi 10) (mi 11)
  let v := gMix v 2 7 8 13 (mi 12) (mi 13)
  gMix v 3 4 9 14 (mi 14) (mi 15)

/-- The BLAKE2b compression function: state `h` (8 words), message block
`m` (16 words), byte counter `t`, finalization flag `last`. -/
def blakeCompress (h m : List Nat) (t : Nat) (last : Bool) : List Nat :=
  let v := h ++ blakeIV
  let v := v.set 12 (Nat.xor (v.getD 12 0) (w64 t))
  let v := v.set 13 (Nat.xor (v.getD 13 0) (w64 (t >>> 64)))
  let v := if last then v.set 14 (Nat.xor (v.getD 14 0) (2 ^ 64 - 1)) else v
  let v := (List.range 12).foldl (blakeRound m) v
  (List.range 8).map (fun i => Nat.xor (h.getD i 0) (Nat.xor (v.getD i 0) (v.getD (i + 8) 0)))

/-- Helper for `chunk128`, structurally recursive on a step bound (every
step drops 128 bytes, so `l.length` steps always suffice). -/
def chunk128Go : Nat → List Nat → List (List Nat)
  | 0, l => [l ++ List.replicate (128 - l.length) 0]
  | steps + 1, l =>
    if l.length ≤ 128 then [l ++ List.replicate (128 - l.length) 0]
    else l.take 128 :: chunk128Go steps (l.drop 128)

/-- Split a byte list into zero-padded 128-byte blocks (one zero block
for empty input, as BLAKE2b prescribes). -/
def chunk128 (l : List Nat) : List (List Nat) := chunk128Go l.length l

/-- Little-endian 64-bit words of a 128-byte block. -/
def wordsOfBlock (block : List Nat) : List Nat :=
  (List.range 16).map (fun j =>
    (List.range 8).foldr (fun b acc => block.getD (8 * j + b) 0 + 256 * acc) 0)

/-- The first eight little-endian bytes of a word. -/
def bytesLE8 (x : Nat) : List Nat :=
  (List.range 8).map (fun j => (x >>> (8 * j)) % 256)

/-- BLAKE2b-256 of a byte list (unkeyed, 32-byte digest), as
`blake2b.Sum256` computes it. -/
def blake2b256 (input : List Nat) : List Nat :=
  let h0 := blakeIV.set 0 (Nat.xor (blakeIV.getD 0 0) 0x01010020)
  let blocks := chunk128 input
  let n := blocks.length
  let h := (List.range n).foldl (fun h i =>
    let m := wordsOfBlock (blocks.getD i [])
    if i + 1 = n then blakeCompress h m input.length true
    else blakeCompress h m ((i + 1) * 128) false) h0
  ((List.range 4).map (fun i => bytesLE8 (h.getD i 0))).flatten

/-- A 32-byte key/ID read as a natural number (big-endian), the reading
under which `Nat.xor` ordering matches the byte-wise XOR metric. -/
def bytesToID (bytes : List Nat) : Nat := bytes.foldl (fun a b => a * 256 + b) 0

/-- The key `dht.iterativeStore` derives: BLAKE2b-256 of the value, as an
ID. -/
def keyOf (value : List Nat) : Nat := bytesToID (blake2b256 value)

/-! ## The generic call capability

Modelled from the spec: the walk is parameterized by a *Call* capability
(`Target()`, `Do(nw, addr)`, `Result(r) → stop`); `FIND_NODES` never
requests a stop, `FIND_VALUE` stops when a response carries the value and
accumulates that value in the call object (`call.value`).  The concrete
call types (`NewFindNodesCall`, `NewFindValueCall`) are not among the
provided sources. -/

/-- A remote node's answer: the closest contacts it returned and, for a
FIND_VALUE call, the value when it has one (`Result.Value()` non-empty). -/
structure ReplyData where
  closest : List Contact
  value : Option (List Nat)
deriving DecidableEq, Repr, Inhabited

/-- What the network does with one dispatched RPC: `call.Do` fails
synchronously, the completion channel delivers `nil` (timeout), or a
result arrives. -/
inductive RpcOutcome where
  | doFail
  | timeout
  | reply (rd : ReplyData)
deriving DecidableEq, Repr, Inhabited

/-- The call capability: its target and its `Result` callback, which
threads the accumulated value (`call.value`) and decides the stop flag. -/
structure CallSpec where
  target : Nat
  onResult : Option (List Nat) → ReplyData → Option (List Nat) × Bool

/-- Modelled from the spec: `NewFindNodesCall(target)` — `Result` ignores
the response payload and never stops the walk. -/
def findNodesCall (target : Nat) : CallSpec :=
  ⟨target, fun acc _ => (acc, false)⟩

/-- Modelled from the spec: `NewFindValueCall(key)` — `Result` captures a
returned value in the call object and requests early termination. -/
def findValueCall (key : Nat) : CallSpec :=
  ⟨key, fun acc rd => match rd.value with
    | some v => (some v, true)
    | none => (acc, false)⟩

/-! ## The walk state machine (`func (dht *DHT) walk`, dht.go:120-223) -/

/-- Errors the spec's §7 names for the lookup path.  The walk's single
return statement is `return contacts, nil`; these constructors exist so
that "the error is nil" and "fails with NotFound" are statable. -/
inductive DhtError where
  | notFound
  | lookupEmpty
deriving DecidableEq, Repr, Inhabited

/-- The walk's mutable state: the shortlist `sl`, the routing table the
walk adds responders to, the `sent` NodeID set, the `rest` flag, the
current `closest` contact and the call object's accumulated value. -/
structure WalkSt where
  sl : Shortlist
  rt : Table
  sent : List Nat
  rest : Bool
  closest : Contact
  acc : Option (List Nat)
deriving DecidableEq, Repr, Inhabited

/-- Result of the dispatch loop (dht.go:150-168) over one wave. -/
structure DispatchOut where
  sl : Shortlist
  sent : List Nat
  attempted : List Contact
  awaited : List Contact
deriving DecidableEq, Repr, Inhabited

/-- The dispatch loop `for i, contact := range contacts` (dht.go:150-168):
break at index `α` unless `rest` is set; skip contacts already in `sent`
and the local node; on a synchronous `call.Do` error remove the contact
from the shortlist, otherwise mark it sent and queue its completion.
`attempted` records every contact `call.Do` was invoked on, `awaited`
those whose channel was queued, both in dispatch order. -/
def dispatchGo (env : Contact → RpcOutcome) (me : Contact) (rest : Bool) :
    Nat → List Contact → Shortlist → List Nat → DispatchOut
  | _, [], sl, sent => ⟨sl, sent, [], []⟩
  | i, c :: cs, sl, sent =>
    if α ≤ i ∧ rest = false then ⟨sl, sent, [], []⟩
    else if c.nodeID ∈ sent ∨ c.nodeID = me.nodeID then
      dispatchGo env me rest (i + 1) cs sl sent
    else
      match env c with
      | .doFail =>
        let r := dispatchGo env me rest (i + 1) cs (sl.remove c) sent
        ⟨r.sl, r.sent, c :: r.attempted, r.awaited⟩
      | _ =>
        let r := dispatchGo env me rest (i + 1) cs sl (c.nodeID :: sent)
        ⟨r.sl, r.sent, c :: r.attempted, c :: r.awaited⟩

/-- Result of the fan-in loop (dht.go:181-203) over one wave. -/
structure ProcOut where
  sl : Shortlist
  rt : Table
  acc : Option (List Nat)
  count : Nat
  stopped : Bool
deriving DecidableEq, Repr, Inhabited

/-- The fan-in loop `for i := 0; i < len(await); i++` (dht.go:181-203):
each received completion either carries a result — add the callee to the
routing table, fold its closest contacts into the shortlist, run
`call.Result` and break out of the loop if it asks to stop — or is `nil`
(timeout), in which case the callee is removed from the shortlist.
`count` is how many completions the loop received; `stopped` records a
break.  (The `doFail` outcome never occurs among awaited contacts; it is
handled like the `nil` branch to keep the function total.) -/
def processResults (call : CallSpec) :
    List (Contact × RpcOutcome) → Shortlist → Table → Option (List Nat) → ProcOut
  | [], sl, rt, acc => ⟨sl, rt, acc, 0, false⟩
  | (callee, o) :: arr, sl, rt, acc =>
    match o with
    | .reply rd =>
      let rt1 := rt.add callee
      let sl1 := sl.add rd.closest
      let (acc1, stop) := call.onResult acc rd
      if stop then ⟨sl1, rt1, acc1, 1, true⟩
      else
        let r := processResults call arr sl1 rt1 acc1
        ⟨r.sl, r.rt, r.acc, r.count + 1, r.stopped⟩
    | _ =>
      let r := processResults call arr (sl.remove callee) rt acc
      ⟨r.sl, r.rt, r.acc, r.count + 1, r.stopped⟩

/-- Rearrange a wave's awaited contacts in the arrival order a schedule
chooses: `perm` selects positions of `l` first, remaining positions
follow in order.  For every `perm` the result is a permutation of `l`,
so quantifying over schedules covers every fan-in interleaving of the
unordered `results` channel. -/
def reorder (perm : List Nat) (l : List Contact) : List Contact :=
  let idx := perm.dedup.filter (· < l.length)
  let other := (List.range l.length).filter (fun i => ¬ idx.contains i)
  (idx ++ other).filterMap (fun i => l[i]?)

/-- Everything observable about one iteration of the walk's outer loop:
the state the wave started from, what was dispatched and awaited, how
many completions the fan-in loop received, whether `call.Result`
requested a stop, and the shortlist snapshot the iteration ends with
(`contacts = sl.SortedContacts()`, dht.go:205). -/
structure WaveLog where
  restBefore : Bool
  closestBefore : Contact
  slBefore : List Contact
  sentBefore : List Nat
  attempted : List Contact
  awaited : List Contact
  processedCount : Nat
  stopped : Bool
  slAfter : List Contact
  sentAfter : List Nat
deriving DecidableEq, Repr, Inhabited

/-- One iteration of the walk's outer `for` loop up to line 205: dispatch
a wave over the sorted shortlist snapshot, then fan in the completions in
the order `sched` chooses for wave `w`. -/
def walkWave (env : Contact → RpcOutcome) (call : CallSpec) (sched : Nat → List Nat)
    (me : Contact) (w : Nat) (st : WalkSt) : WaveLog × WalkSt :=
  let contacts := st.sl.sortedContacts
  let d := dispatchGo env me st.rest 0 contacts st.sl st.sent
  let arrivals := (reorder (sched w) d.awaited).map (fun c => (c, env c))
  let p := processResults call arrivals d.sl st.rt st.acc
  (⟨st.rest, st.closest, contacts, st.sent, d.attempted, d.awaited, p.count, p.stopped,
    p.sl.sortedContacts, d.sent⟩,
   ⟨p.sl, p.rt, d.sent, st.rest, st.closest, p.acc⟩)

/-- How a walk ends: the single `return contacts, nil` (dht.go:216) with
the final state of the call object, a Go panic (indexing `contacts[0]` on
an empty slice), or fuel exhaustion standing for a run longer than the
fuel allows. -/
inductive WalkOut where
  | ok (contacts : List Contact) (err : Option DhtError) (final : WalkSt)
  | panicked
  | fuelOut
deriving DecidableEq, Repr, Inhabited

/-- The walk's outer loop (dht.go:145-222): run a wave, resort the
shortlist, and decide — unchanged closest with `rest` unset starts the
exhaustive pass, unchanged closest with `rest` set returns the sorted
shortlist with a nil error, a new closest continues (with `rest` as it
is).  Also returns the log of every wave run. -/
def walkLoop (env : Contact → RpcOutcome) (call : CallSpec) (sched : Nat → List Nat)
    (me : Contact) : Nat → Nat → WalkSt → List WaveLog × WalkOut
  | 0, _, _ => ([], .fuelOut)
  | fuel + 1, w, st =>
    let r := walkWave env call sched me w st
    match r.2.sl.sortedContacts with
    | [] => ([r.1], .panicked)
    | first :: restC =>
      if st.closest.nodeID = first.nodeID then
        if st.rest = true then
          ([r.1], .ok (first :: restC) none r.2)
        else
          let cont := walkLoop env call sched me fuel (w + 1) { r.2 with rest := true }
          (r.1 :: cont.1, cont.2)
      else
        let cont := walkLoop env call sched me fuel (w + 1) { r.2 with closest := first }
        (r.1 :: cont.1, cont.2)

/-- `func (dht *DHT) walk(call Call)` (dht.go:120-223): seed the
shortlist with `NClosest(target, α)`, take `closest := contacts[0]` —
a Go panic when the seed is empty — and iterate. -/
def walkRun (env : Contact → RpcOutcome) (call : CallSpec) (sched : Nat → List Nat)
    (rt : Table) (me : Contact) (fuel : Nat) : List WaveLog × WalkOut :=
  let sl := rt.nclosest call.target α
  match sl.sortedContacts with
  | [] => ([], .panicked)
  | c0 :: _ => walkLoop env call sched me fuel 0 ⟨sl, rt, [], false, c0, none⟩

/-! ## Entry points built on the walk (dht.go:86-108, 225-260) -/

/-- `iterativeFindNodes(target)` (dht.go:225-227). -/
def iterativeFindNodes (env : Contact → RpcOutcome) (sched : Nat → List Nat)
    (rt : Table) (me : Contact) (fuel : Nat) (target : Nat) : List WaveLog × WalkOut :=
  walkRun env (findNodesCall target) sched rt me fuel

/-- `Join(me)` (dht.go:100-108): a node lookup of the local ID; `some e`
is a normal return with error `e`, `none` a run that panicked or ran out
of fuel. -/
def joinRun (env : Contact → RpcOutcome) (sched : Nat → List Nat)
    (rt : Table) (me : Contact) (fuel : Nat) : Option (Option DhtError) :=
  match iterativeFindNodes env sched rt me fuel me.nodeID with
  | (_, .ok _ e _) => some e
  | _ => none

/-- A normal return of `iterativeStore` (dht.go:229-252): the derived
key, the error, the contacts `nw.Store` was issued to (every contact of
the walk's result, in order) and those whose store succeeded. -/
structure StoreOut where
  key : Nat
  err : Option DhtError
  attempted : List Contact
  stored : List Contact
deriving DecidableEq, Repr, Inhabited

/-- `iterativeStore(value)` (dht.go:229-252): hash the value with
BLAKE2b-256, look up the nodes closest to the key, send STORE to each of
them (`storeEnv` tells which sends fail; a failure is logged and the loop
moves on), and return the key.  `none` stands for a walk that panicked
or exceeded the fuel. -/
def iterativeStore (env : Contact → RpcOutcome) (sched : Nat → List Nat)
    (storeEnv : Contact → Bool) (rt : Table) (me : Contact) (fuel : Nat)
    (value : List Nat) : Option StoreOut :=
  let hash := keyOf value
  match walkRun env (findNodesCall hash) sched rt me fuel with
  | (_, .ok contacts e _) =>
    match e with
    | some e1 => some ⟨hash, some e1, [], []⟩
    | none => some ⟨hash, none, contacts, contacts.filter storeEnv⟩
  | _ => none

/-- `iterativeFindValue(hash)` (dht.go:254-260), the implementation of
`Get`: walk with a FIND_VALUE call; on a nil walk error the returned
value is `call.value` (the empty byte string when no response carried a
value).  `none` stands for a walk that panicked or exceeded the fuel. -/
def iterativeFindValue (env : Contact → RpcOutcome) (sched : Nat → List Nat)
    (rt : Table) (me : Contact) (fuel : Nat) (key : Nat) :
    Option (List Nat × Option DhtError) :=
  match walkRun env (findValueCall key) sched rt me fuel with
  | (_, .ok _ e st) =>
    match e with
    | none => some (st.acc.getD [], none)
    | some e1 => some ([], some e1)
  | _ => none

/-! ## Inbound request handlers (dht.go:54-84) and the local store -/

/-- An inbound FIND_NODES request as the handler reads it: the sender,
the requested target and the session identifier to reply under. -/
structure FindNodesRequest where
  sessionID : Nat
  sender : Contact
  target : Nat
deriving DecidableEq, Repr, Inhabited

/-- The reply `SendNodes(closest, request.SessionID, request.From.Address)`
is called with (dht.go:66). -/
structure NodesReply where
  contacts : List Contact
  sessionID : Nat
  address : Nat
deriving DecidableEq, Repr, Inhabited

/-- One iteration of `findNodesRequestHandler` (dht.go:54-71): add the
sender to the routing table, compute the up-to-`k` closest contacts to
the requested target and send them back under the request's session ID.
A `SendNodes` failure is only logged, so the handler state does not
depend on it. -/
def findNodesRequestStep (rt : Table) (req : FindNodesRequest) : Table × NodesReply :=
  let rt1 := rt.add req.sender
  let closest := (rt1.nclosest req.target k).sortedContacts
  (rt1, ⟨closest, req.sessionID, req.sender.address⟩)

/-- An inbound STORE request as the handler reads it: the sender and the
value — the wire format carries no key. -/
structure StoreRequest where
  sender : Contact
  value : List Nat
deriving DecidableEq, Repr, Inhabited

/-- A stored item.  Modelled from the spec: `{key, value, origin,
timestamps}` with `key = H(value)`; of the timestamps only `t_stored`
(the ingest time) matters to the claims checked here. -/
structure StoredItem where
  value : List Nat
  origin : Nat
  tStored : Nat
deriving DecidableEq, Repr, Inhabited

/-- Modelled from the spec: the local store (component E), a key-indexed
map of stored items.  The expire/replicate/republish sweep is not
modelled; no claim checked here depends on it. -/
structure Database where
  items : List (Nat × StoredItem)
deriving DecidableEq, Repr, Inhabited

/-- Modelled from the spec: `AddItem(value, origin)` — derive the key as
the hash of the value and insert or refresh the entry. -/
def Database.addItem (db : Database) (value : List Nat) (origin : Nat) (now : Nat) :
    Database :=
  let key := keyOf value
  ⟨(key, ⟨value, origin, now⟩) :: db.items.filter (fun e => e.1 ≠ key)⟩

/-- Look up a stored item by key. -/
def Database.getItem (db : Database) (key : Nat) : Option StoredItem :=
  (db.items.find? (fun e => e.1 = key)).map (·.2)

/-- One iteration of `storeRequestHandler` (dht.go:73-84): add the sender
to the routing table, then ingest the value via
`AddItem(request.Value, request.From.NodeID)`. -/
def storeRequestStep (rt : Table) (db : Database) (req : StoreRequest) (now : Nat) :
    Table × Database :=
  (rt.add req.sender, db.addItem req.value req.sender.nodeID now)

/-! ## Statement vocabulary

Predicates used to state the checked properties over a walk's wave log,
plus, for the claims the code refutes, a formalization of the claim as
the specification words it (clearly marked `Spec...`/`SpecClaim`). -/

/-- Dispatchable by the wave loop: not yet sent and not the local node. -/
def unsentNonMe (sent : List Nat) (me : Contact) (c : Contact) : Bool :=
  decide (c.nodeID ∉ sent ∧ c.nodeID ≠ me.nodeID)

/-- The `i`-th wave of a trace (`default` past the end). -/
def waveAt (tr : List WaveLog) (i : Nat) : WaveLog := tr.getD i default

/-- Does the walk outcome return exactly `cs` with a nil error? -/
def outOkWith (out : WalkOut) (cs : List Contact) : Bool :=
  match out with
  | .ok cs2 e _ => cs2 == cs && e == none
  | _ => false

/-- Distinct NodeIDs in a contact list. -/
abbrev keysNodup (l : List Contact) : Prop := (l.map Contact.nodeID).Nodup

/-- The per-wave decision structure the walk actually implements (the
amendment of claim C1): after wave `i`, an empty shortlist panics; an
unchanged closest with `rest` set terminates with the sorted shortlist
and a nil error; an unchanged closest with `rest` unset makes the next
wave an exhaustive pass (`rest` set, closest kept) over all unsent
non-`me` contacts; a changed closest makes the next wave keep the current
`rest` flag — α-limited only while `rest` is still false — with the new
closest recorded.  (`tr[i+1]? = none` with a `fuelOut` outcome marks runs
the fuel cut short.) -/
def walkDecisionSpec (tr : List WaveLog) (out : WalkOut) (me : Contact) : Prop :=
  ∀ (i : Nat) (li : WaveLog), tr[i]? = some li →
    (li.slAfter = [] → tr[i + 1]? = none ∧ out = .panicked) ∧
    ∀ f t2, li.slAfter = f :: t2 →
      ((li.closestBefore.nodeID = f.nodeID ∧ li.restBefore = true) →
        tr[i + 1]? = none ∧ ∃ fs, out = .ok li.slAfter none fs) ∧
      ((li.closestBefore.nodeID = f.nodeID ∧ li.restBefore = false) →
        (tr[i + 1]? = none → out = .fuelOut) ∧
        ∀ (lj : WaveLog), tr[i + 1]? = some lj →
          lj.restBefore = true ∧ lj.closestBefore = li.closestBefore ∧
          lj.slBefore = li.slAfter ∧ lj.sentBefore = li.sentAfter ∧
          lj.attempted = lj.slBefore.filter (unsentNonMe lj.sentBefore me)) ∧
      (li.closestBefore.nodeID ≠ f.nodeID →
        (tr[i + 1]? = none → out = .fuelOut) ∧
        ∀ (lj : WaveLog), tr[i + 1]? = some lj →
          lj.restBefore = li.restBefore ∧ lj.closestBefore = f ∧
          lj.slBefore = li.slAfter ∧ lj.sentBefore = li.sentAfter ∧
          lj.attempted = (if lj.restBefore = true then lj.slBefore
            else lj.slBefore.take α).filter (unsentNonMe lj.sentBefore me))

/-- The wave selection the walk actually implements (the amendment of
claim C3): a wave dispatches the unsent non-`me` contacts *among the
first α entries* of the sorted shortlist while `rest` is false, and all
unsent non-`me` contacts once `rest` is set; the local node is never
dispatched. -/
def waveShapeSpec (tr : List WaveLog) (me : Contact) : Prop :=
  ∀ (i : Nat) (li : WaveLog), tr[i]? = some li →
    li.attempted = (if li.restBefore = true then li.slBefore
      else li.slBefore.take α).filter (unsentNonMe li.sentBefore me) ∧
    ∀ c ∈ li.attempted, c.nodeID ≠ me.nodeID

/-- Claim C4: a contact whose awaited RPC is a timeout stays in `sent`
after its wave, is never dispatched by any later wave, and its processing
step removes it from the shortlist. -/
def timeoutExclusionSpec (env : Contact → RpcOutcome) (call : CallSpec)
    (tr : List WaveLog) : Prop :=
  ∀ (i : Nat) (li : WaveLog), tr[i]? = some li → ∀ c ∈ li.awaited, env c = .timeout →
    c.nodeID ∈ li.sentAfter ∧
    (∀ (j : Nat) (lj : WaveLog), tr[j]? = some lj → i < j → ∀ d ∈ lj.attempted, d.nodeID ≠ c.nodeID) ∧
    (∀ arr sl rt2 acc, processResults call ((c, RpcOutcome.timeout) :: arr) sl rt2 acc =
      { processResults call arr (sl.remove c) rt2 acc with
        count := (processResults call arr (sl.remove c) rt2 acc).count + 1 })

/-- Claim C7 as stated, over a normally-returning FIND_VALUE walk: a
captured value is returned with a nil error, and a walk in which no
contacted node returned the value fails with `NotFound`. -/
def c7SpecClaim (env : Contact → RpcOutcome) (sched : Nat → List Nat)
    (rt : Table) (me : Contact) (fuel : Nat) (key : Nat) : Prop :=
  ∀ tr cs e st, walkRun env (findValueCall key) sched rt me fuel = (tr, .ok cs e st) →
    (∀ v, st.acc = some v →
      iterativeFindValue env sched rt me fuel key = some (v, none)) ∧
    (st.acc = none →
      iterativeFindValue env sched rt me fuel key = some ([], some DhtError.notFound))

/-- What `iterativeFindValue` actually returns on a normally-terminating
walk (the amendment of claim C7): the call object's captured value — the
empty byte string when no response carried one — always with a nil
error. -/
def getValueSpec (env : Contact → RpcOutcome) (sched : Nat → List Nat)
    (rt : Table) (me : Contact) (fuel : Nat) (key : Nat) : Prop :=
  ∀ tr cs e st, walkRun env (findValueCall key) sched rt me fuel = (tr, .ok cs e st) →
    iterativeFindValue env sched rt me fuel key = some (st.acc.getD [], none)

/-- One wave of claim C1 as the specification states it (checked at wave
`i` of a trace): unchanged closest with `rest` set terminates the walk
returning the sorted shortlist; unchanged with `rest` unset makes the
next wave an exhaustive pass; a changed closest makes the next wave
α-wide (the first α unsent contacts). -/
def c1SpecAt (tr : List WaveLog) (out : WalkOut) (me : Contact) (i : Nat) : Bool :=
  let li := waveAt tr i
  let first := li.slAfter.headD default
  let lj := waveAt tr (i + 1)
  if li.closestBefore.nodeID == first.nodeID then
    if li.restBefore then (i + 1 == tr.length) && outOkWith out li.slAfter
    else
      if i + 1 < tr.length then
        lj.restBefore && (lj.attempted == lj.slBefore.filter (unsentNonMe lj.sentBefore me))
      else true
  else
    if i + 1 < tr.length then
      (lj.closestBefore == first) &&
      (lj.attempted == (lj.slBefore.filter (unsentNonMe lj.sentBefore me)).take α)
    else true

/-- Claim C1 as stated, over every wave of a trace. -/
def c1SpecClaim (tr : List WaveLog) (out : WalkOut) (me : Contact) : Prop :=
  ∀ i ∈ List.range tr.length, c1SpecAt tr out me i = true

/-- One wave of claim C3 as the specification states it: the dispatched
wave is the first α not-yet-sent non-`me` contacts of the sorted
shortlist (all of them once `rest` is set). -/
def c3SpecAt (tr : List WaveLog) (me : Contact) (i : Nat) : Bool :=
  let li := waveAt tr i
  li.attempted ==
    (if li.restBefore then li.slBefore.filter (unsentNonMe li.sentBefore me)
     else (li.slBefore.filter (unsentNonMe li.sentBefore me)).take α)

/-- Claim C3 as stated, over every wave of a trace. -/
def c3SpecClaim (tr : List WaveLog) (me : Contact) : Prop :=
  ∀ i ∈ List.range tr.length, c3SpecAt tr me i = true

/-! ## Concrete scenarios

Small closed networks used as witnesses and counterexamples.  `cn n` is
the contact with NodeID and address `n`; targets are `0`, so the XOR
distance of `cn n` to the target is `n` itself. -/

/-- The contact with NodeID and address `n`. -/
def cn (n : Nat) : Contact := ⟨n, n⟩

/-- The identity fan-in schedule: completions arrive in dispatch order. -/
def sched0 : Nat → List Nat := fun _ => []

/-- Every STORE send succeeds. -/
def storeT : Contact → Bool := fun _ => true

/-- Scenario for claim C3: the seed wave answers with closer contacts so
that wave 1 has sent contacts among the first α entries of the
shortlist while unsent ones sit beyond them. -/
def env3 : Contact → RpcOutcome := fun c =>
  if c.nodeID = 2 then .reply ⟨[cn 1], none⟩
  else if c.nodeID = 3 then .reply ⟨[cn 4, cn 5], none⟩
  else if c.nodeID ∈ [1, 4, 5, 6] then .reply ⟨[], none⟩
  else .timeout

/-- Routing table for the claim C3 scenario. -/
def rt3 : Table := ⟨cn 100, [cn 2, cn 3, cn 6]⟩

/-- Scenario for claim C1: the exhaustive pass discovers a closer
contact, so a wave follows a changed-closest decision while `rest` is
already set. -/
def env4 : Contact → RpcOutcome := fun c =>
  if c.nodeID = 10 then .reply ⟨[cn 20, cn 21, cn 22, cn 23], none⟩
  else if c.nodeID = 20 then .reply ⟨[cn 5, cn 30, cn 31, cn 32, cn 33], none⟩
  else if c.nodeID ∈ [11, 12, 21, 22, 23, 5, 30, 31, 32, 33] then .reply ⟨[], none⟩
  else .timeout

/-- Routing table for the claim C1 scenario. -/
def rt4 : Table := ⟨cn 100, [cn 10, cn 11, cn 12]⟩

/-- Scenario for claim C6: two RPCs are dispatched and the first
completion processed carries the value, so `call.Result` stops the wave
with one completion still outstanding. -/
def env6 : Contact → RpcOutcome := fun c =>
  if c.nodeID = 1 then .reply ⟨[], some [7]⟩
  else if c.nodeID = 2 then .reply ⟨[], none⟩
  else .timeout

/-- Routing table for the claim C6 scenario. -/
def rt6 : Table := ⟨cn 100, [cn 1, cn 2]⟩

/-- Scenario for claim C10: `call.Do` on contact 1 always fails
synchronously; contact 2's response re-adds contact 1 to the shortlist. -/
def env10 : Contact → RpcOutcome := fun c =>
  if c.nodeID = 1 then .doFail
  else if c.nodeID = 2 then .reply ⟨[cn 1, cn 3], none⟩
  else if c.nodeID = 3 then .reply ⟨[], none⟩
  else .timeout

/-- Routing table for the claim C10 scenario. -/
def rt10 : Table := ⟨cn 100, [cn 1, cn 2]⟩

/-- A one-peer network whose single contact answers without a value. -/
def envW : Contact → RpcOutcome := fun c =>
  if c.nodeID = 1 then .reply ⟨[], none⟩ else .timeout

/-- A one-peer network whose single contact returns the value `[42]`. -/
def envV : Contact → RpcOutcome := fun c =>
  if c.nodeID = 1 then .reply ⟨[], some [42]⟩ else .timeout

/-- Routing table for the one-peer scenarios. -/
def rtW : Table := ⟨cn 9, [cn 1]⟩

/-- Scenario for claim C4: contact 1 answers with contact 3, whose RPC
then times out during the exhaustive pass. -/
def envT : Contact → RpcOutcome := fun c =>
  if c.nodeID = 1 then .reply ⟨[cn 3], none⟩ else .timeout

/-! # Theorems -/

/-! ## The hash implementation against published test vectors -/

set_option maxRecDepth 100000 in
/-- BLAKE2b-256 of the empty string (RFC 7693 parameters, unkeyed). -/
theorem blake2b256_empty_vector :
    keyOf [] = 0x0e5751c026e543b2e8ab2eb06099daa1d1e5df47778f7787faab45cdf12fe3a8 := by
  rfl

set_option maxRecDepth 100000 in
/-- BLAKE2b-256 of `"abc"`. -/
theorem blake2b256_abc_vector :
    keyOf [97, 98, 99] =
      0xbddd813c634239723171ef3fee98579b94964e3bb1cb3e427262c8c068d52319 := by
  rfl

/-! ## C2: a walk on an empty seed shortlist -/

/-- C2: when the routing table yields no contacts, `walk` does not return
an empty slice — `closest := contacts[0]` (dht.go:143) indexes an empty
slice and panics.  The trace is empty, so no RPC is issued before the
panic. -/
theorem walk_empty_seed_panics :
    ∀ (env : Contact → RpcOutcome) (call : CallSpec) (sched : Nat → List Nat)
      (me : Contact) (fuel : Nat) (rt : Table), rt.contacts = [] →
      walkRun env call sched rt me fuel = ([], .panicked) := by
  intro env call sched me fuel rt h
  simp [walkRun, Table.nclosest, h, sortByDist, Shortlist.sortedContacts, List.insertionSort]

/-- Witness: the panic at the concrete empty table. -/
theorem walk_empty_seed_panics_witness :
    walkRun envW (findNodesCall 0) sched0 ⟨cn 9, []⟩ (cn 9) 9 = ([], .panicked) :=
  walk_empty_seed_panics envW (findNodesCall 0) sched0 (cn 9) 9 ⟨cn 9, []⟩ rfl

/-! ## C6: a stop response abandons the wave's remaining completions -/

/-- C6: in the `env6` run the first wave dispatches and awaits two RPCs,
`call.Result` on the first processed completion requests a stop, and the
fan-in loop receives only that one completion (dht.go:197 breaks out):
the second dispatched completion is never received by the walk, which
still returns normally.  This contradicts the claim that every
already-dispatched completion is drained. -/
theorem early_stop_abandons_completions :
    ((walkRun env6 (findValueCall 0) sched0 rt6 (cn 100) 9).1.map
      (fun l => (l.awaited.length, l.processedCount, l.stopped))) =
        [(2, 1, true), (0, 0, false)] ∧
    outOkWith (walkRun env6 (findValueCall 0) sched0 rt6 (cn 100) 9).2
      [cn 1, cn 2] = true := by
  decide

/-! ## C1 and C3: the claims as stated, refuted on concrete walks -/

/-- C1 counterexample: in the `env4` walk, wave 1 ends with a changed
closest while `rest` is already set, and the following wave is the full
pass `[cn 5, cn 30, cn 31, cn 32, cn 33]` — five contacts, not an α-wide
wave — so the claim's "performs another α-wide wave" clause fails at
wave index 1. -/
theorem walk_decision_claim_refuted :
    ¬ c1SpecClaim (walkRun env4 (findNodesCall 0) sched0 rt4 (cn 100) 9).1
      (walkRun env4 (findNodesCall 0) sched0 rt4 (cn 100) 9).2 (cn 100) := by
  intro h
  exact absurd (h 1 (by decide)) (by decide)

/-- C3 counterexample: in the `env3` walk, wave 1 starts from the sorted
shortlist `[1, 2, 3, 4, 5, 6]` with `sent = {2, 3, 6}` and dispatches
only `[cn 1]` — the unsent contacts among the first α entries — while
the claim's "first α not-yet-sent contacts" would be `[1, 4, 5]`. -/
theorem wave_selection_claim_refuted :
    ¬ c3SpecClaim (walkRun env3 (findNodesCall 0) sched0 rt3 (cn 100) 9).1 (cn 100) := by
  intro h
  exact absurd (h 1 (by decide)) (by decide)

/-! ## C7: the claim as stated, refuted -/

/-- C7 counterexample: in the `envW` FIND_VALUE walk no contacted node
returns the value (the final `call.value` is unset), yet
`iterativeFindValue` returns the empty value with a *nil* error — the
walk's only return is `return contacts, nil` — instead of failing with
`NotFound`. -/
theorem findValue_notFound_refuted : ¬ c7SpecClaim envW sched0 rtW (cn 9) 9 0 := by
  intro h
  have h2 := (h _ _ _ _ rfl).2 rfl
  exact absurd h2 (by decide)

/-! ## NodeID-distinctness is preserved by the shortlist operations -/

/-- Filtering keeps NodeIDs distinct. -/
theorem keysNodup_filter (l : List Contact) (p : Contact → Bool) (h : keysNodup l) :
    keysNodup (l.filter p) :=
  h.sublist ((List.filter_sublist l).map Contact.nodeID)

/-- Taking a prefix keeps NodeIDs distinct. -/
theorem keysNodup_take (n : Nat) (l : List Contact) (h : keysNodup l) :
    keysNodup (l.take n) :=
  h.sublist ((List.take_sublist n l).map Contact.nodeID)

/-- Sorting by distance keeps exactly the same NodeIDs, so distinctness
transfers both ways. -/
theorem keysNodup_sortByDist (t : Nat) (l : List Contact) :
    keysNodup (sortByDist t l) ↔ keysNodup l :=
  ((List.perm_insertionSort (leDist t) l).map Contact.nodeID).nodup_iff

/-- `insertContact` refuses duplicates, so it keeps NodeIDs distinct. -/
theorem keysNodup_insertContact (l : List Contact) (c : Contact) (h : keysNodup l) :
    keysNodup (insertContact l c) := by
  unfold insertContact
  by_cases hany : l.any (fun d => d.nodeID = c.nodeID) = true
  · simp [hany, h]
  · rw [if_neg hany]
    have hc : c.nodeID ∉ l.map Contact.nodeID := by
      simp only [List.any_eq_true, decide_eq_true_eq] at hany
      intro hx
      obtain ⟨d, hd, hdx⟩ := List.mem_map.mp hx
      exact hany ⟨d, hd, hdx⟩
    simp only [keysNodup, List.map_append, List.map_cons, List.map_nil]
    rw [List.nodup_append]
    refine ⟨h, List.nodup_singleton _, ?_⟩
    intro x hx hx2
    simp only [List.mem_singleton] at hx2
    exact hc (hx2 ▸ hx)

/-- Folding `insertContact` keeps NodeIDs distinct. -/
theorem keysNodup_foldl_insert (cs : List Contact) :
    ∀ (l : List Contact), keysNodup l → keysNodup (cs.foldl insertContact l) := by
  induction cs with
  | nil => intro l h; exact h
  | cons c cs ih =>
    intro l h
    exact ih (insertContact l c) (keysNodup_insertContact l c h)

/-- `Shortlist.add` keeps NodeIDs distinct. -/
theorem keysNodup_shortlist_add (sl : Shortlist) (cs : List Contact)
    (h : keysNodup sl.contacts) : keysNodup (sl.add cs).contacts :=
  keysNodup_take k _ ((keysNodup_sortByDist sl.target _).mpr (keysNodup_foldl_insert cs _ h))

/-- `Shortlist.remove` keeps NodeIDs distinct. -/
theorem keysNodup_shortlist_remove (sl : Shortlist) (c : Contact)
    (h : keysNodup sl.contacts) : keysNodup (sl.remove c).contacts :=
  keysNodup_filter _ _ h

/-- `Table.nclosest` yields a shortlist with distinct NodeIDs. -/
theorem keysNodup_nclosest (rt : Table) (target n : Nat) (h : keysNodup rt.contacts) :
    keysNodup (rt.nclosest target n).contacts :=
  keysNodup_take n _ ((keysNodup_sortByDist target _).mpr h)

/-- The sorted snapshot of a shortlist with distinct NodeIDs has
distinct NodeIDs. -/
theorem keysNodup_sortedContacts (sl : Shortlist) (h : keysNodup sl.contacts) :
    keysNodup sl.sortedContacts :=
  (keysNodup_sortByDist sl.target _).mpr h

/-! ## The dispatch loop: step lemmas -/

/-- Empty snapshot: nothing dispatched. -/
theorem dispatchGo_nil (env : Contact → RpcOutcome) (me : Contact) (rest : Bool)
    (i : Nat) (sl : Shortlist) (sent : List Nat) :
    dispatchGo env me rest i [] sl sent = ⟨sl, sent, [], []⟩ := rfl

/-- Index `α` reached with `rest` unset: the loop breaks. -/
theorem dispatchGo_break (env : Contact → RpcOutcome) (me : Contact) (rest : Bool)
    (i : Nat) (c : Contact) (cs : List Contact) (sl : Shortlist) (sent : List Nat)
    (h : α ≤ i ∧ rest = false) :
    dispatchGo env me rest i (c :: cs) sl sent = ⟨sl, sent, [], []⟩ := by
  simp only [dispatchGo]
  rw [if_pos h]

/-- A sent or local contact is skipped. -/
theorem dispatchGo_skip (env : Contact → RpcOutcome) (me : Contact) (rest : Bool)
    (i : Nat) (c : Contact) (cs : List Contact) (sl : Shortlist) (sent : List Nat)
    (h : ¬(α ≤ i ∧ rest = false)) (h2 : c.nodeID ∈ sent ∨ c.nodeID = me.nodeID) :
    dispatchGo env me rest i (c :: cs) sl sent = dispatchGo env me rest (i + 1) cs sl sent := by
  simp only [dispatchGo]
  rw [if_neg h, if_pos h2]

/-- A synchronous `call.Do` failure: the contact is removed from the
shortlist, `sent` is untouched, and no completion is awaited. -/
theorem dispatchGo_dofail (env : Contact → RpcOutcome) (me : Contact) (rest : Bool)
    (i : Nat) (c : Contact) (cs : List Contact) (sl : Shortlist) (sent : List Nat)
    (h : ¬(α ≤ i ∧ rest = false)) (h2 : ¬(c.nodeID ∈ sent ∨ c.nodeID = me.nodeID))
    (h3 : env c = .doFail) :
    dispatchGo env me rest i (c :: cs) sl sent =
      { dispatchGo env me rest (i + 1) cs (sl.remove c) sent with
        attempted := c :: (dispatchGo env me rest (i + 1) cs (sl.remove c) sent).attempted } := by
  simp only [dispatchGo]
  rw [if_neg h, if_neg h2, h3]

/-- A successful `call.Do`: the contact is marked sent and awaited. -/
theorem dispatchGo_dispatch (env : Contact → RpcOutcome) (me : Contact) (rest : Bool)
    (i : Nat) (c : Contact) (cs : List Contact) (sl : Shortlist) (sent : List Nat)
    (h : ¬(α ≤ i ∧ rest = false)) (h2 : ¬(c.nodeID ∈ sent ∨ c.nodeID = me.nodeID))
    (h3 : env c ≠ .doFail) :
    dispatchGo env me rest i (c :: cs) sl sent =
      { dispatchGo env me rest (i + 1) cs sl (c.nodeID :: sent) with
        attempted := c :: (dispatchGo env me rest (i + 1) cs sl (c.nodeID :: sent)).attempted,
        awaited := c :: (dispatchGo env me rest (i + 1) cs sl (c.nodeID :: sent)).awaited } := by
  simp only [dispatchGo]
  rw [if_neg h, if_neg h2]

/-! ## The dispatch loop: invariants -/

/-- Membership in the `sent` set after a dispatch loop: exactly the
previous members plus the NodeIDs of the awaited contacts. -/
theorem dispatchGo_sent_char (env : Contact → RpcOutcome) (me : Contact) (rest : Bool) :
    ∀ (cs : List Contact) (i : Nat) (sl : Shortlist) (sent : List Nat) (x : Nat),
      x ∈ (dispatchGo env me rest i cs sl sent).sent ↔
        x ∈ sent ∨ ∃ c ∈ (dispatchGo env me rest i cs sl sent).awaited, c.nodeID = x := by
  intro cs
  induction cs with
  | nil => intro i sl sent x; simp [dispatchGo_nil]
  | cons c cs ih =>
    intro i sl sent x
    by_cases hb : α ≤ i ∧ rest = false
    · simp [dispatchGo_break env me rest i c cs sl sent hb]
    · by_cases hs : c.nodeID ∈ sent ∨ c.nodeID = me.nodeID
      · rw [dispatchGo_skip env me rest i c cs sl sent hb hs]
        exact ih (i + 1) sl sent x
      · by_cases henv : env c = .doFail
        · rw [dispatchGo_dofail env me rest i c cs sl sent hb hs henv]
          exact ih (i + 1) (sl.remove c) sent x
        · rw [dispatchGo_dispatch env me rest i c cs sl sent hb hs henv]
          rw [ih (i + 1) sl (c.nodeID :: sent) x]
          constructor
          · rintro (hx | ⟨d, hd, hdx⟩)
            · rcases List.mem_cons.mp hx with rfl | hx2
              · exact Or.inr ⟨c, List.mem_cons_self c _, rfl⟩
              · exact Or.inl hx2
            · exact Or.inr ⟨d, List.mem_cons_of_mem c hd, hdx⟩
          · rintro (hx | ⟨d, hd, hdx⟩)
            · exact Or.inl (List.mem_cons_of_mem _ hx)
            · rcases List.mem_cons.mp hd with rfl | hd2
              · exact Or.inl (hdx ▸ List.mem_cons_self d.nodeID sent)
              · exact Or.inr ⟨d, hd2, hdx⟩

/-- Every contact the loop invokes `call.Do` on was not in `sent` when
the loop started. -/
theorem dispatchGo_attempted_fresh (env : Contact → RpcOutcome) (me : Contact) (rest : Bool) :
    ∀ (cs : List Contact) (i : Nat) (sl : Shortlist) (sent : List Nat) (c2 : Contact),
      c2 ∈ (dispatchGo env me rest i cs sl sent).attempted → c2.nodeID ∉ sent := by
  intro cs
  induction cs with
  | nil => intro i sl sent c2 h; simp [dispatchGo_nil] at h
  | cons c cs ih =>
    intro i sl sent c2 hmem
    by_cases hb : α ≤ i ∧ rest = false
    · rw [dispatchGo_break env me rest i c cs sl sent hb] at hmem
      simp at hmem
    · by_cases hs : c.nodeID ∈ sent ∨ c.nodeID = me.nodeID
      · rw [dispatchGo_skip env me rest i c cs sl sent hb hs] at hmem
        exact ih (i + 1) sl sent c2 hmem
      · by_cases henv : env c = .doFail
        · rw [dispatchGo_dofail env me rest i c cs sl sent hb hs henv] at hmem
          simp only [List.mem_cons] at hmem
          rcases hmem with rfl | hmem
          · exact fun hx => hs (Or.inl hx)
          · exact ih (i + 1) (sl.remove c) sent c2 hmem
        · rw [dispatchGo_dispatch env me rest i c cs sl sent hb hs henv] at hmem
          simp only [List.mem_cons] at hmem
          rcases hmem with rfl | hmem
          · exact fun hx => hs (Or.inl hx)
          · intro hx
            exact ih (i + 1) sl (c.nodeID :: sent) c2 hmem (List.mem_cons_of_mem _ hx)

/-- The loop never invokes `call.Do` on the local node. -/
theorem dispatchGo_attempted_notme (env : Contact → RpcOutcome) (me : Contact) (rest : Bool) :
    ∀ (cs : List Contact) (i : Nat) (sl : Shortlist) (sent : List Nat) (c2 : Contact),
      c2 ∈ (dispatchGo env me rest i cs sl sent).attempted → c2.nodeID ≠ me.nodeID := by
  intro cs
  induction cs with
  | nil => intro i sl sent c2 h; simp [dispatchGo_nil] at h
  | cons c cs ih =>
    intro i sl sent c2 hmem
    by_cases hb : α ≤ i ∧ rest = false
    · rw [dispatchGo_break env me rest i c cs sl sent hb] at hmem
      simp at hmem
    · by_cases hs : c.nodeID ∈ sent ∨ c.nodeID = me.nodeID
      · rw [dispatchGo_skip env me rest i c cs sl sent hb hs] at hmem
        exact ih (i + 1) sl sent c2 hmem
      · by_cases henv : env c = .doFail
        · rw [dispatchGo_dofail env me rest i c cs sl sent hb hs henv] at hmem
          simp only [List.mem_cons] at hmem
          rcases hmem with rfl | hmem
          · exact fun hx => hs (Or.inr hx)
          · exact ih (i + 1) (sl.remove c) sent c2 hmem
        · rw [dispatchGo_dispatch env me rest i c cs sl sent hb hs henv] at hmem
          simp only [List.mem_cons] at hmem
          rcases hmem with rfl | hmem
          · exact fun hx => hs (Or.inr hx)
          · exact ih (i + 1) sl (c.nodeID :: sent) c2 hmem

/-- Awaited contacts are those whose `call.Do` did not fail. -/
theorem dispatchGo_awaited_ok (env : Contact → RpcOutcome) (me : Contact) (rest : Bool) :
    ∀ (cs : List Contact) (i : Nat) (sl : Shortlist) (sent : List Nat) (c2 : Contact),
      c2 ∈ (dispatchGo env me rest i cs sl sent).awaited → env c2 ≠ .doFail := by
  intro cs
  induction cs with
  | nil => intro i sl sent c2 h; simp [dispatchGo_nil] at h
  | cons c cs ih =>
    intro i sl sent c2 hmem
    by_cases hb : α ≤ i ∧ rest = false
    · rw [dispatchGo_break env me rest i c cs sl sent hb] at hmem
      simp at hmem
    · by_cases hs : c.nodeID ∈ sent ∨ c.nodeID = me.nodeID
      · rw [dispatchGo_skip env me rest i c cs sl sent hb hs] at hmem
        exact ih (i + 1) sl sent c2 hmem
      · by_cases henv : env c = .doFail
        · rw [dispatchGo_dofail env me rest i c cs sl sent hb hs henv] at hmem
          exact ih (i + 1) (sl.remove c) sent c2 hmem
        · rw [dispatchGo_dispatch env me rest i c cs sl sent hb hs henv] at hmem
          simp only [List.mem_cons] at hmem
          rcases hmem with rfl | hmem
          · exact henv
          · exact ih (i + 1) sl (c.nodeID :: sent) c2 hmem

/-- The dispatch loop only removes contacts from the shortlist, so
NodeID-distinctness survives it. -/
theorem dispatchGo_keysNodup (env : Contact → RpcOutcome) (me : Contact) (rest : Bool) :
    ∀ (cs : List Contact) (i : Nat) (sl : Shortlist) (sent : List Nat),
      keysNodup sl.contacts → keysNodup (dispatchGo env me rest i cs sl sent).sl.contacts := by
  intro cs
  induction cs with
  | nil => intro i sl sent h; simpa [dispatchGo_nil] using h
  | cons c cs ih =>
    intro i sl sent h
    by_cases hb : α ≤ i ∧ rest = false
    · rw [dispatchGo_break env me rest i c cs sl sent hb]
      exact h
    · by_cases hs : c.nodeID ∈ sent ∨ c.nodeID = me.nodeID
      · rw [dispatchGo_skip env me rest i c cs sl sent hb hs]
        exact ih (i + 1) sl sent h
      · by_cases henv : env c = .doFail
        · rw [dispatchGo_dofail env me rest i c cs sl sent hb hs henv]
          exact ih (i + 1) (sl.remove c) sent (keysNodup_shortlist_remove sl c h)
        · rw [dispatchGo_dispatch env me rest i c cs sl sent hb hs henv]
          exact ih (i + 1) sl (c.nodeID :: sent) h

/-- With `rest` unset the index check cuts the iteration to the first
`α - i` contacts; with it gone the loop never breaks. -/
theorem dispatchGo_break_take (env : Contact → RpcOutcome) (me : Contact) :
    ∀ (cs : List Contact) (i : Nat) (sl : Shortlist) (sent : List Nat),
      dispatchGo env me false i cs sl sent =
        dispatchGo env me true i (cs.take (α - i)) sl sent := by
  intro cs
  induction cs with
  | nil => intro i sl sent; simp [dispatchGo_nil, List.take_nil]
  | cons c cs ih =>
    intro i sl sent
    by_cases hb : α ≤ i
    · rw [dispatchGo_break env me false i c cs sl sent ⟨hb, rfl⟩]
      have ht : α - i = 0 := Nat.sub_eq_zero_of_le hb
      rw [ht, List.take_zero, dispatchGo_nil]
    · have hlt : i < α := Nat.lt_of_not_le hb
      have ht : α - i = (α - (i + 1)) + 1 := by omega
      rw [ht, List.take_succ_cons]
      have hb1 : ¬(α ≤ i ∧ (false : Bool) = false) := fun hx => hb hx.1
      have hb2 : ¬(α ≤ i ∧ (true : Bool) = false) := fun hx => Bool.noConfusion hx.2
      by_cases hs : c.nodeID ∈ sent ∨ c.nodeID = me.nodeID
      · rw [dispatchGo_skip env me false i c cs sl sent hb1 hs,
          dispatchGo_skip env me true i c (cs.take (α - (i + 1))) sl sent hb2 hs]
        exact ih (i + 1) sl sent
      · by_cases henv : env c = .doFail
        · rw [dispatchGo_dofail env me false i c cs sl sent hb1 hs henv,
            dispatchGo_dofail env me true i c (cs.take (α - (i + 1))) sl sent hb2 hs henv,
            ih (i + 1) (sl.remove c) sent]
        · rw [dispatchGo_dispatch env me false i c cs sl sent hb1 hs henv,
            dispatchGo_dispatch env me true i c (cs.take (α - (i + 1))) sl sent hb2 hs henv,
            ih (i + 1) sl (c.nodeID :: sent)]

/-- With `rest` set and a duplicate-free snapshot, the set of contacts
dispatched is exactly the filter of the snapshot by "unsent (relative to
any set agreeing with the live one on the snapshot) and not `me`". -/
theorem dispatchGo_attempted_filter (env : Contact → RpcOutcome) (me : Contact) :
    ∀ (cs : List Contact) (i : Nat) (sl : Shortlist) (sent sent0 : List Nat),
      (cs.map Contact.nodeID).Nodup →
      (∀ c ∈ cs, c.nodeID ∈ sent ↔ c.nodeID ∈ sent0) →
      (dispatchGo env me true i cs sl sent).attempted = cs.filter (unsentNonMe sent0 me) := by
  intro cs
  induction cs with
  | nil => intro i sl sent sent0 hnd hcompat; simp [dispatchGo_nil]
  | cons c cs ih =>
    intro i sl sent sent0 hnd hcompat
    have hb : ¬(α ≤ i ∧ (true : Bool) = false) := fun hx => Bool.noConfusion hx.2
    simp only [List.map_cons, List.nodup_cons] at hnd
    have hcompat_c := hcompat c (List.mem_cons_self c cs)
    have hcompat_cs : ∀ d ∈ cs, d.nodeID ∈ sent ↔ d.nodeID ∈ sent0 :=
      fun d hd => hcompat d (List.mem_cons_of_mem c hd)
    by_cases hs : c.nodeID ∈ sent ∨ c.nodeID = me.nodeID
    · rw [dispatchGo_skip env me true i c cs sl sent hb hs]
      have hfilter : unsentNonMe sent0 me c = false := by
        rw [unsentNonMe, decide_eq_false_iff_not]
        rintro ⟨h1, h2⟩
        rcases hs with hx | hx
        · exact h1 (hcompat_c.mp hx)
        · exact h2 hx
      rw [List.filter_cons_of_neg (by simp [hfilter])]
      exact ih (i + 1) sl sent sent0 hnd.2 hcompat_cs
    · push_neg at hs
      have hfilter : unsentNonMe sent0 me c = true := by
        simp only [unsentNonMe, decide_eq_true_eq]
        exact ⟨fun hx => hs.1 (hcompat_c.mpr hx), hs.2⟩
      rw [List.filter_cons_of_pos hfilter]
      by_cases henv : env c = .doFail
      · rw [dispatchGo_dofail env me true i c cs sl sent hb
          (by push_neg; exact hs) henv]
        simp only [List.cons.injEq, true_and]
        exact ih (i + 1) (sl.remove c) sent sent0 hnd.2 hcompat_cs
      · rw [dispatchGo_dispatch env me true i c cs sl sent hb
          (by push_neg; exact hs) henv]
        simp only [List.cons.injEq, true_and]
        refine ih (i + 1) sl (c.nodeID :: sent) sent0 hnd.2 ?_
        intro d hd
        rw [List.mem_cons]
        constructor
        · intro hx
          rcases hx with hx | hx
          · exact absurd (hx ▸ List.mem_map_of_mem Contact.nodeID hd) hnd.1
          · exact (hcompat_cs d hd).mp hx
        · intro hx
          exact Or.inr ((hcompat_cs d hd).mpr hx)

/-! ## The fan-in loop: step lemmas and invariants -/

/-- Empty arrival list: nothing processed. -/
theorem processResults_nil (call : CallSpec) (sl : Shortlist) (rt : Table)
    (acc : Option (List Nat)) :
    processResults call [] sl rt acc = ⟨sl, rt, acc, 0, false⟩ := rfl

/-- A `nil` completion (timeout): the callee is removed from the
shortlist and the loop continues. -/
theorem processResults_timeout (call : CallSpec) (c : Contact)
    (arr : List (Contact × RpcOutcome)) (sl : Shortlist) (rt : Table)
    (acc : Option (List Nat)) :
    processResults call ((c, RpcOutcome.timeout) :: arr) sl rt acc =
      { processResults call arr (sl.remove c) rt acc with
        count := (processResults call arr (sl.remove c) rt acc).count + 1 } := rfl

/-- A result completion: add the callee to the routing table, fold its
closest contacts into the shortlist, run `call.Result`, and either break
(stop) or continue. -/
theorem processResults_reply (call : CallSpec) (c : Contact) (rd : ReplyData)
    (arr : List (Contact × RpcOutcome)) (sl : Shortlist) (rt : Table)
    (acc : Option (List Nat)) :
    processResults call ((c, RpcOutcome.reply rd) :: arr) sl rt acc =
      if (call.onResult acc rd).2 then
        ⟨sl.add rd.closest, rt.add c, (call.onResult acc rd).1, 1, true⟩
      else
        { processResults call arr (sl.add rd.closest) (rt.add c) (call.onResult acc rd).1 with
          count := (processResults call arr (sl.add rd.closest) (rt.add c)
            (call.onResult acc rd).1).count + 1 } := by
  simp only [processResults]

/-- The fan-in loop keeps NodeIDs distinct in the shortlist. -/
theorem processResults_keysNodup (call : CallSpec) :
    ∀ (arr : List (Contact × RpcOutcome)) (sl : Shortlist) (rt : Table)
      (acc : Option (List Nat)), keysNodup sl.contacts →
      keysNodup (processResults call arr sl rt acc).sl.contacts := by
  intro arr
  induction arr with
  | nil => intro sl rt acc h; exact h
  | cons p arr ih =>
    intro sl rt acc h
    rcases p with ⟨c, o⟩
    cases o with
    | doFail =>
      show keysNodup (processResults call ((c, RpcOutcome.doFail) :: arr) sl rt acc).sl.contacts
      simp only [processResults]
      exact ih (sl.remove c) rt acc (keysNodup_shortlist_remove sl c h)
    | timeout =>
      rw [processResults_timeout]
      exact ih (sl.remove c) rt acc (keysNodup_shortlist_remove sl c h)
    | reply rd =>
      rw [processResults_reply]
      by_cases hstop : (call.onResult acc rd).2 = true
      · rw [if_pos hstop]
        exact keysNodup_shortlist_add sl rd.closest h
      · rw [if_neg hstop]
        exact ih (sl.add rd.closest) (rt.add c) (call.onResult acc rd).1
          (keysNodup_shortlist_add sl rd.closest h)

/-! ## One wave: field equations and invariants -/

/-- The wave log starts from the wave's entry state (all `rfl`). -/
theorem walkWave_before (env : Contact → RpcOutcome) (call : CallSpec)
    (sched : Nat → List Nat) (me : Contact) (w : Nat) (st : WalkSt) :
    (walkWave env call sched me w st).1.restBefore = st.rest ∧
    (walkWave env call sched me w st).1.closestBefore = st.closest ∧
    (walkWave env call sched me w st).1.slBefore = st.sl.sortedContacts ∧
    (walkWave env call sched me w st).1.sentBefore = st.sent :=
  ⟨rfl, rfl, rfl, rfl⟩

/-- The wave log ends with the wave's exit state (all `rfl`). -/
theorem walkWave_after (env : Contact → RpcOutcome) (call : CallSpec)
    (sched : Nat → List Nat) (me : Contact) (w : Nat) (st : WalkSt) :
    (walkWave env call sched me w st).1.sentAfter = (walkWave env call sched me w st).2.sent ∧
    (walkWave env call sched me w st).1.slAfter =
      (walkWave env call sched me w st).2.sl.sortedContacts ∧
    (walkWave env call sched me w st).2.rest = st.rest ∧
    (walkWave env call sched me w st).2.closest = st.closest :=
  ⟨rfl, rfl, rfl, rfl⟩

/-- The wave's dispatch results come from the dispatch loop over the
sorted snapshot (all `rfl`). -/
theorem walkWave_dispatch_eq (env : Contact → RpcOutcome) (call : CallSpec)
    (sched : Nat → List Nat) (me : Contact) (w : Nat) (st : WalkSt) :
    (walkWave env call sched me w st).1.attempted =
      (dispatchGo env me st.rest 0 st.sl.sortedContacts st.sl st.sent).attempted ∧
    (walkWave env call sched me w st).1.awaited =
      (dispatchGo env me st.rest 0 st.sl.sortedContacts st.sl st.sent).awaited ∧
    (walkWave env call sched me w st).2.sent =
      (dispatchGo env me st.rest 0 st.sl.sortedContacts st.sl st.sent).sent :=
  ⟨rfl, rfl, rfl⟩

/-- The `sent` set only grows across a wave. -/
theorem walkWave_sent_mono (env : Contact → RpcOutcome) (call : CallSpec)
    (sched : Nat → List Nat) (me : Contact) (w : Nat) (st : WalkSt) (x : Nat)
    (h : x ∈ st.sent) : x ∈ (walkWave env call sched me w st).2.sent :=
  (dispatchGo_sent_char env me st.rest st.sl.sortedContacts 0 st.sl st.sent x).mpr (Or.inl h)

/-- Every awaited contact of a wave is in the wave's final `sent` set. -/
theorem walkWave_awaited_sent (env : Contact → RpcOutcome) (call : CallSpec)
    (sched : Nat → List Nat) (me : Contact) (w : Nat) (st : WalkSt) (c : Contact)
    (h : c ∈ (walkWave env call sched me w st).1.awaited) :
    c.nodeID ∈ (walkWave env call sched me w st).1.sentAfter :=
  (dispatchGo_sent_char env me st.rest st.sl.sortedContacts 0 st.sl st.sent c.nodeID).mpr
    (Or.inr ⟨c, h, rfl⟩)

/-- Every contact a wave attempts was unsent when the wave began. -/
theorem walkWave_attempted_fresh (env : Contact → RpcOutcome) (call : CallSpec)
    (sched : Nat → List Nat) (me : Contact) (w : Nat) (st : WalkSt) (c : Contact)
    (h : c ∈ (walkWave env call sched me w st).1.attempted) : c.nodeID ∉ st.sent :=
  dispatchGo_attempted_fresh env me st.rest st.sl.sortedContacts 0 st.sl st.sent c h

/-- A wave never attempts the local node. -/
theorem walkWave_attempted_notme (env : Contact → RpcOutcome) (call : CallSpec)
    (sched : Nat → List Nat) (me : Contact) (w : Nat) (st : WalkSt) (c : Contact)
    (h : c ∈ (walkWave env call sched me w st).1.attempted) : c.nodeID ≠ me.nodeID :=
  dispatchGo_attempted_notme env me st.rest st.sl.sortedContacts 0 st.sl st.sent c h

/-- A wave keeps NodeIDs in the shortlist distinct. -/
theorem walkWave_keysNodup (env : Contact → RpcOutcome) (call : CallSpec)
    (sched : Nat → List Nat) (me : Contact) (w : Nat) (st : WalkSt)
    (h : keysNodup st.sl.contacts) :
    keysNodup (walkWave env call sched me w st).2.sl.contacts :=
  processResults_keysNodup call _ _ st.rt st.acc
    (dispatchGo_keysNodup env me st.rest st.sl.sortedContacts 0 st.sl st.sent h)

/-- The wave a state dispatches: the unsent non-`me` contacts among the
first α entries of the sorted shortlist snapshot while `rest` is unset,
and among the whole snapshot once it is set. -/
theorem walkWave_shape (env : Contact → RpcOutcome) (call : CallSpec)
    (sched : Nat → List Nat) (me : Contact) (w : Nat) (st : WalkSt)
    (h : keysNodup st.sl.contacts) :
    (walkWave env call sched me w st).1.attempted =
      (if st.rest = true then st.sl.sortedContacts else st.sl.sortedContacts.take α).filter
        (unsentNonMe st.sent me) := by
  have hnd : (st.sl.sortedContacts.map Contact.nodeID).Nodup := keysNodup_sortedContacts st.sl h
  rw [(walkWave_dispatch_eq env call sched me w st).1]
  cases hrest : st.rest with
  | false =>
    rw [dispatchGo_break_take env me st.sl.sortedContacts 0 st.sl st.sent, Nat.sub_zero]
    rw [if_neg (by simp)]
    exact dispatchGo_attempted_filter env me (st.sl.sortedContacts.take α) 0 st.sl
      st.sent st.sent
      (hnd.sublist ((List.take_sublist α st.sl.sortedContacts).map Contact.nodeID))
      (fun c _ => Iff.rfl)
  | true =>
    rw [if_pos rfl]
    exact dispatchGo_attempted_filter env me st.sl.sortedContacts 0 st.sl st.sent st.sent
      hnd (fun c _ => Iff.rfl)

/-- A NodeID whose every representative fails `call.Do` synchronously is
never added to `sent` by a wave. -/
theorem walkWave_sent_dofail_free (env : Contact → RpcOutcome) (call : CallSpec)
    (sched : Nat → List Nat) (me : Contact) (w : Nat) (st : WalkSt) (x : Nat)
    (hx : x ∉ st.sent) (hfail : ∀ c : Contact, c.nodeID = x → env c = .doFail) :
    x ∉ (walkWave env call sched me w st).2.sent := by
  intro hmem
  rcases (dispatchGo_sent_char env me st.rest st.sl.sortedContacts 0 st.sl st.sent x).mp
    hmem with h | ⟨c, hc, hcx⟩
  · exact hx h
  · exact dispatchGo_awaited_ok env me st.rest st.sl.sortedContacts 0 st.sl st.sent c hc
      (hfail c hcx)

/-! ## The outer loop: step lemmas -/

/-- No fuel: the model stops. -/
theorem walkLoop_zero (env : Contact → RpcOutcome) (call : CallSpec)
    (sched : Nat → List Nat) (me : Contact) (w : Nat) (st : WalkSt) :
    walkLoop env call sched me 0 w st = ([], .fuelOut) := rfl

/-- The shortlist emptied during the wave: `contacts[0]` panics. -/
theorem walkLoop_succ_panic (env : Contact → RpcOutcome) (call : CallSpec)
    (sched : Nat → List Nat) (me : Contact) (fuel w : Nat) (st : WalkSt)
    (h : (walkWave env call sched me w st).2.sl.sortedContacts = []) :
    walkLoop env call sched me (fuel + 1) w st =
      ([(walkWave env call sched me w st).1], .panicked) := by
  simp [walkLoop, h]

/-- Unchanged closest with `rest` set: the walk returns the sorted
shortlist with a nil error. -/
theorem walkLoop_succ_done (env : Contact → RpcOutcome) (call : CallSpec)
    (sched : Nat → List Nat) (me : Contact) (fuel w : Nat) (st : WalkSt)
    (f : Contact) (t2 : List Contact)
    (h : (walkWave env call sched me w st).2.sl.sortedContacts = f :: t2)
    (h2 : st.closest.nodeID = f.nodeID) (h3 : st.rest = true) :
    walkLoop env call sched me (fuel + 1) w st =
      ([(walkWave env call sched me w st).1],
        .ok (f :: t2) none (walkWave env call sched me w st).2) := by
  simp [walkLoop, h, h2, h3]

/-- Unchanged closest with `rest` unset: loop again with `rest := true`. -/
theorem walkLoop_succ_toRest (env : Contact → RpcOutcome) (call : CallSpec)
    (sched : Nat → List Nat) (me : Contact) (fuel w : Nat) (st : WalkSt)
    (f : Contact) (t2 : List Contact)
    (h : (walkWave env call sched me w st).2.sl.sortedContacts = f :: t2)
    (h2 : st.closest.nodeID = f.nodeID) (h3 : st.rest = false) :
    walkLoop env call sched me (fuel + 1) w st =
      ((walkWave env call sched me w st).1 ::
        (walkLoop env call sched me fuel (w + 1)
          { (walkWave env call sched me w st).2 with rest := true }).1,
       (walkLoop env call sched me fuel (w + 1)
          { (walkWave env call sched me w st).2 with rest := true }).2) := by
  simp [walkLoop, h, h2, h3]

/-- A new closest: loop again with `closest := first`, `rest` as it is. -/
theorem walkLoop_succ_newClosest (env : Contact → RpcOutcome) (call : CallSpec)
    (sched : Nat → List Nat) (me : Contact) (fuel w : Nat) (st : WalkSt)
    (f : Contact) (t2 : List Contact)
    (h : (walkWave env call sched me w st).2.sl.sortedContacts = f :: t2)
    (h2 : st.closest.nodeID ≠ f.nodeID) :
    walkLoop env call sched me (fuel + 1) w st =
      ((walkWave env call sched me w st).1 ::
        (walkLoop env call sched me fuel (w + 1)
          { (walkWave env call sched me w st).2 with closest := f }).1,
       (walkLoop env call sched me fuel (w + 1)
          { (walkWave env call sched me w st).2 with closest := f }).2) := by
  simp [walkLoop, h, h2]

/-- With fuel left, a loop iteration always logs its wave. -/
theorem walkLoop_succ_ne_nil (env : Contact → RpcOutcome) (call : CallSpec)
    (sched : Nat → List Nat) (me : Contact) (fuel w : Nat) (st : WalkSt) :
    (walkLoop env call sched me (fuel + 1) w st).1 ≠ [] := by
  rcases hsl : (walkWave env call sched me w st).2.sl.sortedContacts with _ | ⟨f, t2⟩
  · rw [walkLoop_succ_panic env call sched me fuel w st hsl]
    simp
  · by_cases h2 : st.closest.nodeID = f.nodeID
    · by_cases h3 : st.rest = true
      · rw [walkLoop_succ_done env call sched me fuel w st f t2 hsl h2 h3]
        simp
      · have h3f : st.rest = false := by revert h3; cases st.rest <;> simp
        rw [walkLoop_succ_toRest env call sched me fuel w st f t2 hsl h2 h3f]
        simp
    · rw [walkLoop_succ_newClosest env call sched me fuel w st f t2 hsl h2]
      simp

/-- With fuel left, the first logged wave is the wave of the entry
state. -/
theorem walkLoop_succ_head (env : Contact → RpcOutcome) (call : CallSpec)
    (sched : Nat → List Nat) (me : Contact) (fuel w : Nat) (st : WalkSt) :
    (walkLoop env call sched me (fuel + 1) w st).1[0]? =
      some (walkWave env call sched me w st).1 := by
  rcases hsl : (walkWave env call sched me w st).2.sl.sortedContacts with _ | ⟨f, t2⟩
  · rw [walkLoop_succ_panic env call sched me fuel w st hsl]
    simp
  · by_cases h2 : st.closest.nodeID = f.nodeID
    · by_cases h3 : st.rest = true
      · rw [walkLoop_succ_done env call sched me fuel w st f t2 hsl h2 h3]
        simp
      · have h3f : st.rest = false := by revert h3; cases st.rest <;> simp
        rw [walkLoop_succ_toRest env call sched me fuel w st f t2 hsl h2 h3f]
        simp
    · rw [walkLoop_succ_newClosest env call sched me fuel w st f t2 hsl h2]
      simp

/-! ## The outer loop: invariants -/

/-- The walk's only normal return carries a nil error (the model of
`return contacts, nil`, dht.go:216). -/
theorem walkLoop_err_none (env : Contact → RpcOutcome) (call : CallSpec)
    (sched : Nat → List Nat) (me : Contact) :
    ∀ (fuel w : Nat) (st : WalkSt) (cs : List Contact) (e : Option DhtError) (fs : WalkSt),
      (walkLoop env call sched me fuel w st).2 = .ok cs e fs → e = none := by
  intro fuel
  induction fuel with
  | zero => intro w st cs e fs h; rw [walkLoop_zero] at h; exact absurd h (by simp)
  | succ fuel ih =>
    intro w st cs e fs h
    rcases hsl : (walkWave env call sched me w st).2.sl.sortedContacts with _ | ⟨f, t2⟩
    · rw [walkLoop_succ_panic env call sched me fuel w st hsl] at h
      exact absurd h (by simp)
    · by_cases h2 : st.closest.nodeID = f.nodeID
      · by_cases h3 : st.rest = true
        · rw [walkLoop_succ_done env call sched me fuel w st f t2 hsl h2 h3] at h
          simp only [WalkOut.ok.injEq] at h
          exact h.2.1.symm
        · have h3f : st.rest = false := by revert h3; cases st.rest <;> simp
          rw [walkLoop_succ_toRest env call sched me fuel w st f t2 hsl h2 h3f] at h
          exact ih (w + 1) _ cs e fs h
      · rw [walkLoop_succ_newClosest env call sched me fuel w st f t2 hsl h2] at h
        exact ih (w + 1) _ cs e fs h

/-- Once a NodeID is in `sent`, no later wave of the loop attempts it. -/
theorem walkLoop_sent_never (env : Contact → RpcOutcome) (call : CallSpec)
    (sched : Nat → List Nat) (me : Contact) :
    ∀ (fuel w : Nat) (st : WalkSt) (x : Nat), x ∈ st.sent →
      ∀ li ∈ (walkLoop env call sched me fuel w st).1,
        ∀ c ∈ li.attempted, c.nodeID ≠ x := by
  intro fuel
  induction fuel with
  | zero => intro w st x hx li hli; rw [walkLoop_zero] at hli; exact absurd hli (by simp)
  | succ fuel ih =>
    intro w st x hx li hli
    have hhead : ∀ c ∈ (walkWave env call sched me w st).1.attempted, c.nodeID ≠ x := by
      intro c hc he
      exact walkWave_attempted_fresh env call sched me w st c hc (he ▸ hx)
    have htail : x ∈ (walkWave env call sched me w st).2.sent :=
      walkWave_sent_mono env call sched me w st x hx
    rcases hsl : (walkWave env call sched me w st).2.sl.sortedContacts with _ | ⟨f, t2⟩
    · rw [walkLoop_succ_panic env call sched me fuel w st hsl] at hli
      simp only [List.mem_singleton] at hli
      exact hli ▸ hhead
    · by_cases h2 : st.closest.nodeID = f.nodeID
      · by_cases h3 : st.rest = true
        · rw [walkLoop_succ_done env call sched me fuel w st f t2 hsl h2 h3] at hli
          simp only [List.mem_singleton] at hli
          exact hli ▸ hhead
        · have h3f : st.rest = false := by revert h3; cases st.rest <;> simp
          rw [walkLoop_succ_toRest env call sched me fuel w st f t2 hsl h2 h3f] at hli
          rcases List.mem_cons.mp hli with rfl | hli2
          · exact hhead
          · exact ih (w + 1) { (walkWave env call sched me w st).2 with rest := true }
              x htail li hli2
      · rw [walkLoop_succ_newClosest env call sched me fuel w st f t2 hsl h2] at hli
        rcases List.mem_cons.mp hli with rfl | hli2
        · exact hhead
        · exact ih (w + 1) { (walkWave env call sched me w st).2 with closest := f }
            x htail li hli2

/-- A NodeID that always fails `call.Do` synchronously is never recorded
in `sent` by any wave of the loop. -/
theorem walkLoop_dofail_free (env : Contact → RpcOutcome) (call : CallSpec)
    (sched : Nat → List Nat) (me : Contact) :
    ∀ (fuel w : Nat) (st : WalkSt) (x : Nat), x ∉ st.sent →
      (∀ c : Contact, c.nodeID = x → env c = .doFail) →
      ∀ li ∈ (walkLoop env call sched me fuel w st).1, x ∉ li.sentAfter := by
  intro fuel
  induction fuel with
  | zero => intro w st x hx hfail li hli; rw [walkLoop_zero] at hli; exact absurd hli (by simp)
  | succ fuel ih =>
    intro w st x hx hfail li hli
    have hhead : x ∉ (walkWave env call sched me w st).1.sentAfter :=
      walkWave_sent_dofail_free env call sched me w st x hx hfail
    have htail : x ∉ (walkWave env call sched me w st).2.sent := hhead
    rcases hsl : (walkWave env call sched me w st).2.sl.sortedContacts with _ | ⟨f, t2⟩
    · rw [walkLoop_succ_panic env call sched me fuel w st hsl] at hli
      simp only [List.mem_singleton] at hli
      exact hli ▸ hhead
    · by_cases h2 : st.closest.nodeID = f.nodeID
      · by_cases h3 : st.rest = true
        · rw [walkLoop_succ_done env call sched me fuel w st f t2 hsl h2 h3] at hli
          simp only [List.mem_singleton] at hli
          exact hli ▸ hhead
        · have h3f : st.rest = false := by revert h3; cases st.rest <;> simp
          rw [walkLoop_succ_toRest env call sched me fuel w st f t2 hsl h2 h3f] at hli
          rcases List.mem_cons.mp hli with rfl | hli2
          · exact hhead
          · exact ih (w + 1) { (walkWave env call sched me w st).2 with rest := true }
              x htail hfail li hli2
      · rw [walkLoop_succ_newClosest env call sched me fuel w st f t2 hsl h2] at hli
        rcases List.mem_cons.mp hli with rfl | hli2
        · exact hhead
        · exact ih (w + 1) { (walkWave env call sched me w st).2 with closest := f }
            x htail hfail li hli2

/-- Every logged wave is the wave of some state with a duplicate-free
shortlist (provided the entry shortlist is duplicate-free). -/
theorem walkLoop_log_origin (env : Contact → RpcOutcome) (call : CallSpec)
    (sched : Nat → List Nat) (me : Contact) :
    ∀ (fuel w : Nat) (st : WalkSt), keysNodup st.sl.contacts →
      ∀ li ∈ (walkLoop env call sched me fuel w st).1,
        ∃ w2 st2, keysNodup st2.sl.contacts ∧ li = (walkWave env call sched me w2 st2).1 := by
  intro fuel
  induction fuel with
  | zero => intro w st hnd li hli; rw [walkLoop_zero] at hli; exact absurd hli (by simp)
  | succ fuel ih =>
    intro w st hnd li hli
    have hnd2 : keysNodup (walkWave env call sched me w st).2.sl.contacts :=
      walkWave_keysNodup env call sched me w st hnd
    rcases hsl : (walkWave env call sched me w st).2.sl.sortedContacts with _ | ⟨f, t2⟩
    · rw [walkLoop_succ_panic env call sched me fuel w st hsl] at hli
      simp only [List.mem_singleton] at hli
      exact ⟨w, st, hnd, hli⟩
    · by_cases h2 : st.closest.nodeID = f.nodeID
      · by_cases h3 : st.rest = true
        · rw [walkLoop_succ_done env call sched me fuel w st f t2 hsl h2 h3] at hli
          simp only [List.mem_singleton] at hli
          exact ⟨w, st, hnd, hli⟩
        · have h3f : st.rest = false := by revert h3; cases st.rest <;> simp
          rw [walkLoop_succ_toRest env call sched me fuel w st f t2 hsl h2 h3f] at hli
          rcases List.mem_cons.mp hli with rfl | hli2
          · exact ⟨w, st, hnd, rfl⟩
          · exact ih (w + 1) { (walkWave env call sched me w st).2 with rest := true }
              hnd2 li hli2
      · rw [walkLoop_succ_newClosest env call sched me fuel w st f t2 hsl h2] at hli
        rcases List.mem_cons.mp hli with rfl | hli2
        · exact ⟨w, st, hnd, rfl⟩
        · exact ih (w + 1) { (walkWave env call sched me w st).2 with closest := f }
            hnd2 li hli2

/-- Every wave of the loop dispatches exactly the unsent non-`me`
contacts among the first α shortlist entries (`rest` unset) or among the
whole shortlist (`rest` set). -/
theorem walkLoop_waveShape (env : Contact → RpcOutcome) (call : CallSpec)
    (sched : Nat → List Nat) (me : Contact) (fuel w : Nat) (st : WalkSt)
    (hnd : keysNodup st.sl.contacts) :
    waveShapeSpec (walkLoop env call sched me fuel w st).1 me := by
  intro i li hli
  obtain ⟨w2, st2, hnd2, rfl⟩ := walkLoop_log_origin env call sched me fuel w st hnd li
    (List.getElem?_mem hli)
  constructor
  · exact walkWave_shape env call sched me w2 st2 hnd2
  · intro c hc
    exact walkWave_attempted_notme env call sched me w2 st2 c hc

/-- A contact awaited by wave `i` is in that wave's final `sent` set and
is never attempted by a later wave. -/
theorem walkLoop_awaited_excl (env : Contact → RpcOutcome) (call : CallSpec)
    (sched : Nat → List Nat) (me : Contact) :
    ∀ (fuel w : Nat) (st : WalkSt) (i : Nat) (li : WaveLog),
      (walkLoop env call sched me fuel w st).1[i]? = some li →
      ∀ c ∈ li.awaited,
        c.nodeID ∈ li.sentAfter ∧
        ∀ (j : Nat) (lj : WaveLog),
          (walkLoop env call sched me fuel w st).1[j]? = some lj → i < j →
          ∀ d ∈ lj.attempted, d.nodeID ≠ c.nodeID := by
  intro fuel
  induction fuel with
  | zero => intro w st i li hli; rw [walkLoop_zero] at hli; simp at hli
  | succ fuel ih =>
    intro w st i li hli c hc
    rcases hsl : (walkWave env call sched me w st).2.sl.sortedContacts with _ | ⟨f, t2⟩
    · rw [walkLoop_succ_panic env call sched me fuel w st hsl] at hli ⊢
      rcases i with _ | i2
      · simp only [List.getElem?_cons_zero, Option.some.injEq] at hli
        subst hli
        refine ⟨walkWave_awaited_sent env call sched me w st c hc, ?_⟩
        intro j lj hlj hj
        rcases j with _ | j2
        · exact absurd hj (by omega)
        · simp at hlj
      · simp at hli
    · by_cases h2 : st.closest.nodeID = f.nodeID
      · by_cases h3 : st.rest = true
        · rw [walkLoop_succ_done env call sched me fuel w st f t2 hsl h2 h3] at hli ⊢
          rcases i with _ | i2
          · simp only [List.getElem?_cons_zero, Option.some.injEq] at hli
            subst hli
            refine ⟨walkWave_awaited_sent env call sched me w st c hc, ?_⟩
            intro j lj hlj hj
            rcases j with _ | j2
            · exact absurd hj (by omega)
            · simp at hlj
          · simp at hli
        · have h3f : st.rest = false := by revert h3; cases st.rest <;> simp
          rw [walkLoop_succ_toRest env call sched me fuel w st f t2 hsl h2 h3f] at hli ⊢
          rcases i with _ | i2
          · simp only [List.getElem?_cons_zero, Option.some.injEq] at hli
            subst hli
            refine ⟨walkWave_awaited_sent env call sched me w st c hc, ?_⟩
            intro j lj hlj hj
            rcases j with _ | j2
            · exact absurd hj (by omega)
            · simp only [List.getElem?_cons_succ] at hlj
              have hsent : c.nodeID ∈
                  ({ (walkWave env call sched me w st).2 with rest := true } : WalkSt).sent :=
                walkWave_awaited_sent env call sched me w st c hc
              exact walkLoop_sent_never env call sched me fuel (w + 1)
                { (walkWave env call sched me w st).2 with rest := true } c.nodeID hsent
                lj (List.getElem?_mem hlj)
          · simp only [List.getElem?_cons_succ] at hli
            have hIH := ih (w + 1)
              { (walkWave env call sched me w st).2 with rest := true } i2 li hli c hc
            refine ⟨hIH.1, ?_⟩
            intro j lj hlj hj
            rcases j with _ | j2
            · exact absurd hj (by omega)
            · simp only [List.getElem?_cons_succ] at hlj
              exact hIH.2 j2 lj hlj (by omega)
      · rw [walkLoop_succ_newClosest env call sched me fuel w st f t2 hsl h2] at hli ⊢
        rcases i with _ | i2
        · simp only [List.getElem?_cons_zero, Option.some.injEq] at hli
          subst hli
          refine ⟨walkWave_awaited_sent env call sched me w st c hc, ?_⟩
          intro j lj hlj hj
          rcases j with _ | j2
          · exact absurd hj (by omega)
          · simp only [List.getElem?_cons_succ] at hlj
            have hsent : c.nodeID ∈
                ({ (walkWave env call sched me w st).2 with closest := f } : WalkSt).sent :=
              walkWave_awaited_sent env call sched me w st c hc
            exact walkLoop_sent_never env call sched me fuel (w + 1)
              { (walkWave env call sched me w st).2 with closest := f } c.nodeID hsent
              lj (List.getElem?_mem hlj)
        · simp only [List.getElem?_cons_succ] at hli
          have hIH := ih (w + 1)
            { (walkWave env call sched me w st).2 with closest := f } i2 li hli c hc
          refine ⟨hIH.1, ?_⟩
          intro j lj hlj hj
          rcases j with _ | j2
          · exact absurd hj (by omega)
          · simp only [List.getElem?_cons_succ] at hlj
            exact hIH.2 j2 lj hlj (by omega)

/-- The loop implements exactly the decision structure of
`walkDecisionSpec` (dht.go:205-221). -/
theorem walkLoop_decision (env : Contact → RpcOutcome) (call : CallSpec)
    (sched : Nat → List Nat) (me : Contact) :
    ∀ (fuel w : Nat) (st : WalkSt), keysNodup st.sl.contacts →
      walkDecisionSpec (walkLoop env call sched me fuel w st).1
        (walkLoop env call sched me fuel w st).2 me := by
  intro fuel
  induction fuel with
  | zero =>
    intro w st hnd i li hli
    rw [walkLoop_zero] at hli
    simp at hli
  | succ fuel ih =>
    intro w st hnd
    have hnd2 : keysNodup (walkWave env call sched me w st).2.sl.contacts :=
      walkWave_keysNodup env call sched me w st hnd
    rcases hsl : (walkWave env call sched me w st).2.sl.sortedContacts with _ | ⟨f, t2⟩
    · rw [walkLoop_succ_panic env call sched me fuel w st hsl]
      intro i li hli
      rcases i with _ | i2
      · simp only [List.getElem?_cons_zero, Option.some.injEq] at hli
        subst hli
        constructor
        · intro _
          exact ⟨by simp, rfl⟩
        · intro f2 t22 hft
          have h0 : (walkWave env call sched me w st).1.slAfter = [] := hsl
          rw [h0] at hft
          exact absurd hft (by simp)
      · simp at hli
    · by_cases h2 : st.closest.nodeID = f.nodeID
      · by_cases h3 : st.rest = true
        · rw [walkLoop_succ_done env call sched me fuel w st f t2 hsl h2 h3]
          intro i li hli
          rcases i with _ | i2
          · simp only [List.getElem?_cons_zero, Option.some.injEq] at hli
            subst hli
            have hAfter : (walkWave env call sched me w st).1.slAfter = f :: t2 := hsl
            constructor
            · intro h0
              rw [h0] at hAfter
              exact absurd hAfter (by simp)
            · intro f2 t22 hft
              rw [hAfter] at hft
              obtain ⟨rfl, rfl⟩ : f = f2 ∧ t2 = t22 := by
                injection hft with hf ht
                exact ⟨hf, ht⟩
              refine ⟨?_, ?_, ?_⟩
              · intro _
                refine ⟨by simp, (walkWave env call sched me w st).2, ?_⟩
                rw [hAfter]
              · rintro ⟨_, hrf⟩
                have hrb : (walkWave env call sched me w st).1.restBefore = st.rest := rfl
                rw [hrb, h3] at hrf
                exact absurd hrf (by simp)
              · intro hne
                exact absurd h2 hne
          · simp at hli
        · have h3f : st.rest = false := by revert h3; cases st.rest <;> simp
          rw [walkLoop_succ_toRest env call sched me fuel w st f t2 hsl h2 h3f]
          intro i li hli
          rcases i with _ | i2
          · simp only [List.getElem?_cons_zero, Option.some.injEq] at hli
            subst hli
            have hAfter : (walkWave env call sched me w st).1.slAfter = f :: t2 := hsl
            constructor
            · intro h0
              rw [h0] at hAfter
              exact absurd hAfter (by simp)
            · intro f2 t22 hft
              rw [hAfter] at hft
              obtain ⟨rfl, rfl⟩ : f = f2 ∧ t2 = t22 := by
                injection hft with hf ht
                exact ⟨hf, ht⟩
              refine ⟨?_, ?_, ?_⟩
              · rintro ⟨_, hrt⟩
                have hrb : (walkWave env call sched me w st).1.restBefore = st.rest := rfl
                rw [hrb, h3f] at hrt
                exact absurd hrt (by simp)
              · intro _
                constructor
                · intro hnone
                  simp only [List.getElem?_cons_succ] at hnone
                  rcases fuel with _ | fuel2
                  · rw [walkLoop_zero]
                  · rw [walkLoop_succ_head] at hnone
                    exact absurd hnone (by simp)
                · intro lj hlj
                  simp only [List.getElem?_cons_succ] at hlj
                  rcases fuel with _ | fuel2
                  · rw [walkLoop_zero] at hlj
                    simp at hlj
                  · rw [walkLoop_succ_head] at hlj
                    simp only [Option.some.injEq] at hlj
                    subst hlj
                    exact ⟨rfl, rfl, rfl, rfl,
                      walkWave_shape env call sched me (w + 1)
                        { (walkWave env call sched me w st).2 with rest := true } hnd2⟩
              · intro hne
                exact absurd h2 hne
          · simp only [List.getElem?_cons_succ] at hli
            have hIH := ih (w + 1) { (walkWave env call sched me w st).2 with rest := true }
              hnd2 i2 li hli
            simp only [List.getElem?_cons_succ]
            exact hIH
      · rw [walkLoop_succ_newClosest env call sched me fuel w st f t2 hsl h2]
        intro i li hli
        rcases i with _ | i2
        · simp only [List.getElem?_cons_zero, Option.some.injEq] at hli
          subst hli
          have hAfter : (walkWave env call sched me w st).1.slAfter = f :: t2 := hsl
          constructor
          · intro h0
            rw [h0] at hAfter
            exact absurd hAfter (by simp)
          · intro f2 t22 hft
            rw [hAfter] at hft
            obtain ⟨rfl, rfl⟩ : f = f2 ∧ t2 = t22 := by
              injection hft with hf ht
              exact ⟨hf, ht⟩
            refine ⟨?_, ?_, ?_⟩
            · rintro ⟨hcl, _⟩
              exact absurd hcl h2
            · rintro ⟨hcl, _⟩
              exact absurd hcl h2
            · intro _
              constructor
              · intro hnone
                simp only [List.getElem?_cons_succ] at hnone
                rcases fuel with _ | fuel2
                · rw [walkLoop_zero]
                · rw [walkLoop_succ_head] at hnone
                  exact absurd hnone (by simp)
              · intro lj hlj
                simp only [List.getElem?_cons_succ] at hlj
                rcases fuel with _ | fuel2
                · rw [walkLoop_zero] at hlj
                  simp at hlj
                · rw [walkLoop_succ_head] at hlj
                  simp only [Option.some.injEq] at hlj
                  subst hlj
                  exact ⟨rfl, rfl, rfl, rfl,
                    walkWave_shape env call sched me (w + 1)
                      { (walkWave env call sched me w st).2 with closest := f } hnd2⟩
        · simp only [List.getElem?_cons_succ] at hli
          have hIH := ih (w + 1) { (walkWave env call sched me w st).2 with closest := f }
            hnd2 i2 li hli
          simp only [List.getElem?_cons_succ]
          exact hIH

/-! ## From the loop to `walk` -/

/-- Empty seed: the walk panics before looping (claim C2's input). -/
theorem walkRun_empty (env : Contact → RpcOutcome) (call : CallSpec)
    (sched : Nat → List Nat) (rt : Table) (me : Contact) (fuel : Nat)
    (h : (rt.nclosest call.target α).sortedContacts = []) :
    walkRun env call sched rt me fuel = ([], .panicked) := by
  simp [walkRun, h]

/-- Non-empty seed: the walk is the loop from the seeded state. -/
theorem walkRun_seed (env : Contact → RpcOutcome) (call : CallSpec)
    (sched : Nat → List Nat) (rt : Table) (me : Contact) (fuel : Nat)
    (c0 : Contact) (restC : List Contact)
    (h : (rt.nclosest call.target α).sortedContacts = c0 :: restC) :
    walkRun env call sched rt me fuel =
      walkLoop env call sched me fuel 0 ⟨rt.nclosest call.target α, rt, [], false, c0, none⟩ := by
  simp [walkRun, h]

/-- Any walk that returns normally returns a nil error. -/
theorem walkRun_err_none (env : Contact → RpcOutcome) (call : CallSpec)
    (sched : Nat → List Nat) (rt : Table) (me : Contact) (fuel : Nat)
    (cs : List Contact) (e : Option DhtError) (fs : WalkSt)
    (h : (walkRun env call sched rt me fuel).2 = .ok cs e fs) : e = none := by
  rcases hseed : (rt.nclosest call.target α).sortedContacts with _ | ⟨c0, restC⟩
  · rw [walkRun_empty env call sched rt me fuel hseed] at h
    exact absurd h (by simp)
  · rw [walkRun_seed env call sched rt me fuel c0 restC hseed] at h
    exact walkLoop_err_none env call sched me fuel 0 _ cs e fs h

/-! ## C3 (amended): wave selection -/

/-- C3 (amended): every wave dispatches the unsent non-`me` contacts
*among the first α entries* of the distance-sorted shortlist while
`rest` is false — not the first α unsent contacts — and all unsent
non-`me` contacts once `rest` is set; the local node is never queried. -/
theorem wave_selection_amended :
    ∀ (env : Contact → RpcOutcome) (call : CallSpec) (sched : Nat → List Nat)
      (rt : Table) (me : Contact) (fuel : Nat), keysNodup rt.contacts →
      waveShapeSpec (walkRun env call sched rt me fuel).1 me := by
  intro env call sched rt me fuel hnd
  rcases hseed : (rt.nclosest call.target α).sortedContacts with _ | ⟨c0, restC⟩
  · rw [walkRun_empty env call sched rt me fuel hseed]
    intro i li hli
    simp at hli
  · rw [walkRun_seed env call sched rt me fuel c0 restC hseed]
    exact walkLoop_waveShape env call sched me fuel 0 _
      (keysNodup_nclosest rt call.target α hnd)

/-- Witness for C3 (amended): the `env3` walk, whose routing table has
distinct NodeIDs. -/
theorem wave_selection_amended_witness :
    keysNodup rt3.contacts ∧
    waveShapeSpec (walkRun env3 (findNodesCall 0) sched0 rt3 (cn 100) 9).1 (cn 100) :=
  ⟨by decide, wave_selection_amended env3 (findNodesCall 0) sched0 rt3 (cn 100) 9 (by decide)⟩

/-! ## C1 (amended): the walk's decision structure -/

/-- C1 (amended): after each wave the walk panics on an empty shortlist;
terminates with the sorted shortlist and a nil error when the closest is
unchanged and `rest` is set; starts the exhaustive pass (`rest := true`,
closest kept) when the closest is unchanged and `rest` was false; and on
a new closest continues with `rest` unchanged — so the following wave is
α-wide only if `rest` is still false, and exhaustive once `rest` has
been set (it is never reset). -/
theorem walk_decision_amended :
    ∀ (env : Contact → RpcOutcome) (call : CallSpec) (sched : Nat → List Nat)
      (rt : Table) (me : Contact) (fuel : Nat), keysNodup rt.contacts →
      walkDecisionSpec (walkRun env call sched rt me fuel).1
        (walkRun env call sched rt me fuel).2 me := by
  intro env call sched rt me fuel hnd
  rcases hseed : (rt.nclosest call.target α).sortedContacts with _ | ⟨c0, restC⟩
  · rw [walkRun_empty env call sched rt me fuel hseed]
    intro i li hli
    simp at hli
  · rw [walkRun_seed env call sched rt me fuel c0 restC hseed]
    exact walkLoop_decision env call sched me fuel 0 _
      (keysNodup_nclosest rt call.target α hnd)

/-- Witness for C1 (amended): the `env4` walk. -/
theorem walk_decision_amended_witness :
    keysNodup rt4.contacts ∧
    walkDecisionSpec (walkRun env4 (findNodesCall 0) sched0 rt4 (cn 100) 9).1
      (walkRun env4 (findNodesCall 0) sched0 rt4 (cn 100) 9).2 (cn 100) :=
  ⟨by decide, walk_decision_amended env4 (findNodesCall 0) sched0 rt4 (cn 100) 9 (by decide)⟩

/-! ## C4: timed-out contacts are permanently excluded -/

/-- C4: a contact whose awaited RPC times out stays in the `sent` set
after its wave (so no later wave ever dispatches it again), and its
processing step removes it from the shortlist. -/
theorem timeout_exclusion :
    ∀ (env : Contact → RpcOutcome) (call : CallSpec) (sched : Nat → List Nat)
      (rt : Table) (me : Contact) (fuel : Nat),
      timeoutExclusionSpec env call (walkRun env call sched rt me fuel).1 := by
  intro env call sched rt me fuel
  rcases hseed : (rt.nclosest call.target α).sortedContacts with _ | ⟨c0, restC⟩
  · rw [walkRun_empty env call sched rt me fuel hseed]
    intro i li hli
    simp at hli
  · rw [walkRun_seed env call sched rt me fuel c0 restC hseed]
    intro i li hli c hc _
    have hexcl := walkLoop_awaited_excl env call sched me fuel 0 _ i li hli c hc
    exact ⟨hexcl.1, hexcl.2, fun arr sl rt2 acc => processResults_timeout call c arr sl rt2 acc⟩

/-- Witness for C4: in the `envT` walk, contact 3 is awaited by wave 1
and its RPC times out. -/
theorem timeout_exclusion_witness :
    timeoutExclusionSpec envT (findNodesCall 0)
      (walkRun envT (findNodesCall 0) sched0 rtW (cn 9) 9).1 ∧
    ((walkRun envT (findNodesCall 0) sched0 rtW (cn 9) 9).1.map
      (fun l => l.awaited.map Contact.nodeID) = [[1], [3]] ∧
     envT (cn 3) = .timeout) :=
  ⟨timeout_exclusion envT (findNodesCall 0) sched0 rtW (cn 9) 9, by decide⟩

/-! ## C9: no error can surface from the walk -/

/-- C9: every terminating execution of `walk` returns a nil error (its
single return statement is `return contacts, nil`), so `Join` and
`iterativeFindNodes` never report failure and `iterativeFindValue`
returns a nil error whenever the walk terminates: no `LookupEmpty` or
per-walk error condition reaches these entry points. -/
theorem walk_error_always_nil :
    ∀ (env : Contact → RpcOutcome) (call : CallSpec) (sched : Nat → List Nat)
      (rt : Table) (me : Contact) (fuel : Nat) (key : Nat),
      (∀ cs e fs, (walkRun env call sched rt me fuel).2 = .ok cs e fs → e = none) ∧
      (∀ e, joinRun env sched rt me fuel = some e → e = none) ∧
      (∀ target cs e fs,
        (iterativeFindNodes env sched rt me fuel target).2 = .ok cs e fs → e = none) ∧
      (∀ v e, iterativeFindValue env sched rt me fuel key = some (v, e) → e = none) := by
  intro env call sched rt me fuel key
  refine ⟨fun cs e fs h => walkRun_err_none env call sched rt me fuel cs e fs h, ?_, ?_, ?_⟩
  · intro e h
    rcases hw : iterativeFindNodes env sched rt me fuel me.nodeID with ⟨tr, out⟩
    cases out with
    | ok cs e2 fs =>
      have he2 : e2 = none :=
        walkRun_err_none env (findNodesCall me.nodeID) sched rt me fuel cs e2 fs
          (by rw [show (walkRun env (findNodesCall me.nodeID) sched rt me fuel) = (tr, .ok cs e2 fs)
            from hw])
      simp only [joinRun, hw] at h
      simp only [Option.some.injEq] at h
      rw [← h, he2]
    | panicked => simp [joinRun, hw] at h
    | fuelOut => simp [joinRun, hw] at h
  · intro target cs e fs h
    exact walkRun_err_none env (findNodesCall target) sched rt me fuel cs e fs h
  · intro v e h
    rcases hw : walkRun env (findValueCall key) sched rt me fuel with ⟨tr, out⟩
    cases out with
    | ok cs e2 fs =>
      have he2 : e2 = none :=
        walkRun_err_none env (findValueCall key) sched rt me fuel cs e2 fs (by rw [hw])
      subst he2
      simp only [iterativeFindValue, hw, Option.some.injEq] at h
      exact (congrArg Prod.snd h).symm
    | panicked => simp [iterativeFindValue, hw] at h
    | fuelOut => simp [iterativeFindValue, hw] at h

/-- Witness for C9: the `envW` walk returns normally. -/
theorem walk_error_always_nil_witness :
    (walkRun envW (findNodesCall 0) sched0 rtW (cn 9) 9).2 =
      .ok [cn 1] none ⟨⟨0, [cn 1]⟩, ⟨cn 9, [cn 1]⟩, [1], true, cn 1, none⟩ ∧
    (none : Option DhtError) = none :=
  ⟨by decide,
   (walk_error_always_nil envW (findNodesCall 0) sched0 rtW (cn 9) 9 0).1 _ _ _ rfl⟩

/-! ## C5: iterativeStore -/

/-- C5: on a normally-terminating walk, `iterativeStore(v)` derives the
key as BLAKE2b-256 of `v`, runs the node lookup on that key, issues a
STORE to every contact of the returned shortlist — a failed store is
only dropped from the success list, it aborts nothing — and returns the
derived key with a nil error.  The key depends only on `v`, so two Puts
of the same value return equal keys. -/
theorem iterativeStore_spec :
    ∀ (env : Contact → RpcOutcome) (sched : Nat → List Nat) (storeEnv : Contact → Bool)
      (rt : Table) (me : Contact) (fuel : Nat) (v : List Nat) (tr : List WaveLog)
      (cs : List Contact) (e : Option DhtError) (fs : WalkSt),
      walkRun env (findNodesCall (keyOf v)) sched rt me fuel = (tr, .ok cs e fs) →
      iterativeStore env sched storeEnv rt me fuel v =
        some ⟨keyOf v, none, cs, cs.filter storeEnv⟩ := by
  intro env sched storeEnv rt me fuel v tr cs e fs hw
  have he : e = none :=
    walkRun_err_none env (findNodesCall (keyOf v)) sched rt me fuel cs e fs (by rw [hw])
  subst he
  simp only [iterativeStore, hw]

set_option maxRecDepth 100000 in
/-- Witness for C5: storing the value `[104, 105]` over the one-peer
network. -/
theorem iterativeStore_spec_witness :
    iterativeStore envW sched0 storeT rtW (cn 9) 9 [104, 105] =
      some ⟨keyOf [104, 105], none, [cn 1], [cn 1]⟩ :=
  iterativeStore_spec envW sched0 storeT rtW (cn 9) 9 [104, 105] _ _ _ _ rfl

/-! ## C7 (amended): iterativeFindValue -/

/-- C7 (amended): on a normally-terminating FIND_VALUE walk,
`iterativeFindValue` returns the value captured by the call object —
the empty byte string when no contacted node returned one — always with
a *nil* error; no NotFound error is produced. -/
theorem findValue_amended :
    ∀ (env : Contact → RpcOutcome) (sched : Nat → List Nat) (rt : Table)
      (me : Contact) (fuel : Nat) (key : Nat), getValueSpec env sched rt me fuel key := by
  intro env sched rt me fuel key tr cs e st hw
  have he : e = none :=
    walkRun_err_none env (findValueCall key) sched rt me fuel cs e st (by rw [hw])
  subst he
  simp only [iterativeFindValue, hw]

/-- Witness for C7 (amended): over `envV` the value `[42]` is captured
and returned with a nil error. -/
theorem findValue_amended_witness :
    getValueSpec envV sched0 rtW (cn 9) 9 0 ∧
    iterativeFindValue envV sched0 rtW (cn 9) 9 0 = some ([42], none) :=
  ⟨findValue_amended envV sched0 rtW (cn 9) 9 0, by decide⟩

/-! ## C10: synchronous Do-failures are not recorded in `sent` -/

/-- C10: a contact whose `call.Do` fails synchronously is removed from
the shortlist but *not* recorded in `sent` (first conjunct, the dispatch
step; second conjunct, no wave of a walk ever records such a NodeID), so
when a later response re-adds it to the shortlist it is dispatched
again — in the concrete `env10` walk contact 1 is attempted by waves 0
and 1 while the `sent` set never contains it (third conjunct). -/
theorem syncfail_retry :
    (∀ (env : Contact → RpcOutcome) (me : Contact) (rest : Bool) (i : Nat) (c : Contact)
      (cs : List Contact) (sl : Shortlist) (sent : List Nat),
      ¬(α ≤ i ∧ rest = false) → c.nodeID ∉ sent → c.nodeID ≠ me.nodeID →
      env c = .doFail →
      dispatchGo env me rest i (c :: cs) sl sent =
        { dispatchGo env me rest (i + 1) cs (sl.remove c) sent with
          attempted := c :: (dispatchGo env me rest (i + 1) cs (sl.remove c) sent).attempted }) ∧
    (∀ (env : Contact → RpcOutcome) (call : CallSpec) (sched : Nat → List Nat)
      (rt : Table) (me : Contact) (fuel : Nat) (x : Nat),
      (∀ c : Contact, c.nodeID = x → env c = .doFail) →
      ∀ li ∈ (walkRun env call sched rt me fuel).1, x ∉ li.sentAfter) ∧
    ((walkRun env10 (findNodesCall 0) sched0 rt10 (cn 100) 9).1.map
      (fun l => l.attempted.map Contact.nodeID) = [[1, 2], [1, 3], []] ∧
     env10 (cn 1) = .doFail ∧
     (walkRun env10 (findNodesCall 0) sched0 rt10 (cn 100) 9).1.map WaveLog.sentAfter =
       [[2], [3, 2], [3, 2]]) := by
  refine ⟨?_, ?_, by decide⟩
  · intro env me rest i c cs sl sent h1 h2 h3 h4
    exact dispatchGo_dofail env me rest i c cs sl sent h1 (by push_neg; exact ⟨h2, h3⟩) h4
  · intro env call sched rt me fuel x hfail li hli
    rcases hseed : (rt.nclosest call.target α).sortedContacts with _ | ⟨c0, restC⟩
    · rw [walkRun_empty env call sched rt me fuel hseed] at hli
      exact absurd hli (by simp)
    · rw [walkRun_seed env call sched rt me fuel c0 restC hseed] at hli
      exact walkLoop_dofail_free env call sched me fuel 0 _ x (by simp) hfail li hli

/-- Witness for C10: the dispatch step on the concrete failing contact. -/
theorem syncfail_retry_witness :
    dispatchGo env10 (cn 100) false 0 [cn 1] ⟨0, [cn 1]⟩ [] =
      { dispatchGo env10 (cn 100) false 1 [] (Shortlist.remove ⟨0, [cn 1]⟩ (cn 1)) [] with
        attempted := cn 1 :: (dispatchGo env10 (cn 100) false 1 []
          (Shortlist.remove ⟨0, [cn 1]⟩ (cn 1)) []).attempted } :=
  syncfail_retry.1 env10 (cn 100) false 0 (cn 1) [] ⟨0, [cn 1]⟩ []
    (by decide) (by decide) (by decide) (by decide)

/-! ## C8: the inbound request handlers -/

/-- C8: a FIND_NODES request first adds the sender to the routing table
and is answered with the up-to-`k` closest stored contacts to the
requested target — sorted by ascending distance, all drawn from the
updated table, and closer to the target than every stored contact left
out — under the request's own session identifier and back to the
sender's address (a send failure is logged, no handler state depends on
it); a STORE request adds the sender and ingests the value via
`AddItem(value, sender.NodeID)`, storing it under the locally derived
key `H(value)` — the wire format carries no key at all. -/
theorem handlers_spec :
    ∀ (rt : Table) (db : Database) (req : FindNodesRequest) (reqS : StoreRequest) (now : Nat),
      findNodesRequestStep rt req =
        (rt.add req.sender,
          ⟨((rt.add req.sender).nclosest req.target k).sortedContacts, req.sessionID,
            req.sender.address⟩) ∧
      (findNodesRequestStep rt req).2.contacts.length ≤ k ∧
      List.Sorted (leDist req.target) (findNodesRequestStep rt req).2.contacts ∧
      (∀ c ∈ (findNodesRequestStep rt req).2.contacts, c ∈ (rt.add req.sender).contacts) ∧
      (∀ c ∈ (findNodesRequestStep rt req).2.contacts,
        ∀ d ∈ (rt.add req.sender).contacts,
          d ∉ (findNodesRequestStep rt req).2.contacts →
          distTo req.target c ≤ distTo req.target d) ∧
      storeRequestStep rt db reqS now =
        (rt.add reqS.sender, db.addItem reqS.value reqS.sender.nodeID now) ∧
      (db.addItem reqS.value reqS.sender.nodeID now).getItem (keyOf reqS.value) =
        some ⟨reqS.value, reqS.sender.nodeID, now⟩ := by
  intro rt db req reqS now
  have hperm1 : ∀ (t : Nat) (l : List Contact), List.Perm (sortByDist t l) l :=
    fun t l => List.perm_insertionSort (leDist t) l
  refine ⟨rfl, ?_, ?_, ?_, ?_, rfl, ?_⟩
  · show (sortByDist req.target
      ((sortByDist req.target (rt.add req.sender).contacts).take k)).length ≤ k
    rw [(hperm1 _ _).length_eq, List.length_take]
    exact Nat.min_le_left _ _
  · exact List.sorted_insertionSort (leDist req.target) _
  · intro c hc
    have h1 : c ∈ (sortByDist req.target (rt.add req.sender).contacts).take k :=
      (hperm1 _ _).mem_iff.mp hc
    have h2 : c ∈ sortByDist req.target (rt.add req.sender).contacts :=
      List.take_subset k _ h1
    exact (hperm1 _ _).mem_iff.mp h2
  · intro c hc d hd hdn
    have hS : List.Sorted (leDist req.target)
        (sortByDist req.target (rt.add req.sender).contacts) :=
      List.sorted_insertionSort (leDist req.target) _
    have hc2 : c ∈ (sortByDist req.target (rt.add req.sender).contacts).take k :=
      (hperm1 _ _).mem_iff.mp hc
    have hdS : d ∈ sortByDist req.target (rt.add req.sender).contacts :=
      (hperm1 _ _).mem_iff.mpr hd
    have hdn2 : d ∉ (sortByDist req.target (rt.add req.sender).contacts).take k :=
      fun hx => hdn ((hperm1 _ _).mem_iff.mpr hx)
    have hdrop : d ∈ (sortByDist req.target (rt.add req.sender).contacts).drop k := by
      have hsplit : d ∈ (sortByDist req.target (rt.add req.sender).contacts).take k ++
          (sortByDist req.target (rt.add req.sender).contacts).drop k := by
        rw [List.take_append_drop]
        exact hdS
      rcases List.mem_append.mp hsplit with hx | hx
      · exact absurd hx hdn2
      · exact hx
    have hpw := hS
    rw [← List.take_append_drop k (sortByDist req.target (rt.add req.sender).contacts)]
      at hpw
    exact (List.pairwise_append.mp hpw).2.2 c hc2 d hdrop
  · simp [Database.addItem, Database.getItem]
